import Mathlib

/-!
# Verification of the aerleon policy-rendering core

A shallow embedding, in Lean 4, of the policy renderers in `lib/iptables.py`
and `lib/juniper.py`, together with the pieces of the shared engine they use.
Pure Python functions become Lean functions; Python exceptions become
`Except`; Python in-place mutation of objects (the policy term's comment
list, the renderer's accumulated option list) becomes explicit state passing.
IPv4/IPv6 prefixes are modelled as naturals with an explicit prefix length.

Helpers that live in modules outside the repository snapshot (`nacaddr`,
`aclgenerator`, `policy`) are modelled from the specification and marked as
such in their doc comments.
-/

/-! ## Python string primitives -/

/-- Right-trim of a character list: drop trailing whitespace. -/
def trimRightChars : List Char → List Char
  | [] => []
  | c :: cs =>
    match trimRightChars cs with
    | [] => if c.isWhitespace then [] else [c]
    | r => c :: r

/-- Python `str.strip()`: remove leading and trailing whitespace. -/
def pstrip (s : String) : String :=
  ⟨trimRightChars (s.data.dropWhile Char.isWhitespace)⟩

/-- Python `str.endswith(t)`. -/
def pEndsWith (s t : String) : Bool :=
  t.data.isSuffixOf s.data

/-- Python `str.startswith(t)` (also `str.find(t) == 0`). -/
def pStartsWith (s t : String) : Bool :=
  t.data.isPrefixOf s.data

/-- Scan for an occurrence of the needle `t` at any position of `l`. -/
def containsSubAux (t : List Char) : List Char → Bool
  | [] => t.isPrefixOf []
  | c :: cs => t.isPrefixOf (c :: cs) || containsSubAux t cs

/-- Python `t in s` substring test. -/
def containsSub (s t : String) : Bool :=
  containsSubAux t.data s.data

/-- Split a character list on a separator character; the empty list
yields one empty part, like Python `str.split(sep)`. -/
def splitCharAux (c : Char) : List Char → List (List Char)
  | [] => [[]]
  | ch :: rest =>
    let r := splitCharAux c rest
    if ch = c then [] :: r
    else
      match r with
      | cur :: others => (ch :: cur) :: others
      | [] => [[ch]]

/-- Python `s.split(c)` for a one-character separator. -/
def pSplitChar (s : String) (c : Char) : List String :=
  (splitCharAux c s.data).map (fun l => ⟨l⟩)

/-- A run of `n` spaces. -/
def spacesN (n : Int) : String :=
  ⟨List.replicate n.toNat ' '⟩

/-- Python `s[:n]` where `n` may be negative. -/
def pyTake (s : String) (n : Int) : String :=
  if 0 ≤ n then ⟨s.data.take n.toNat⟩
  else ⟨s.data.take (s.data.length - min s.data.length (-n).toNat)⟩

/-- Python `s[n:]` where `n` may be negative. -/
def pyDrop (s : String) (n : Int) : String :=
  if 0 ≤ n then ⟨s.data.drop n.toNat⟩
  else ⟨s.data.drop (s.data.length - min s.data.length (-n).toNat)⟩

/-- Python `s.rfind(' ')`: index of the last space, `-1` when absent. -/
def pyRfindSpace (s : String) : Int :=
  match s.data.reverse.findIdx? (· == ' ') with
  | some i => (s.data.length : Int) - 1 - (i : Int)
  | none => -1

/-! ## Addresses (`nacaddr` prefixes)

The address library `nacaddr` is external to this repository snapshot: the
model below follows the specification's Address data model (§3) and
AddressAlgebra (§4.1). -/

/-- A CIDR prefix: IP `version` (4 or 6), the network address `net` as an
integer with the host bits zero, the prefix length `pfx`, and the free-text
annotation `text` carried by the parser (ignored by address equality). -/
structure Cidr where
  version : Nat
  net : Nat
  pfx : Nat
  text : String
deriving DecidableEq, Repr

/-- Bit width of the address family. -/
def cidrWidth (c : Cidr) : Nat :=
  if c.version = 6 then 128 else 32

/-- Address equality as the address library defines it: version, network
address and prefix length; the text annotation does not participate. -/
def cidrEq (a b : Cidr) : Bool :=
  a.version == b.version && a.net == b.net && a.pfx == b.pfx

/-- Python `a in b`: the prefix `a` is contained in (or equal to) `b`. -/
def cidrIn (a b : Cidr) : Bool :=
  a.version == b.version && b.pfx ≤ a.pfx &&
    a.net / 2 ^ (cidrWidth b - b.pfx) == b.net / 2 ^ (cidrWidth b - b.pfx)

/-- The two halves of a prefix (one more bit of prefix length). -/
def cidrHalves (p : Cidr) : Cidr × Cidr :=
  ({ p with pfx := p.pfx + 1 },
   { p with pfx := p.pfx + 1, net := p.net + 2 ^ (cidrWidth p - p.pfx - 1) })

/-- Modelled from the spec (§4.1, the external `nacaddr` library is not in
the snapshot): subtract the prefix `e` from the prefix `p`, returning the
CIDR set difference as covering prefixes — correct for partial overlap
(split into remaining sub-prefixes), full containment (drop) and disjoint
prefixes (keep unchanged).  `fuel` bounds the splitting depth; callers pass
the family's bit width, which always suffices. -/
def cidrSubtract (fuel : Nat) (p e : Cidr) : List Cidr :=
  if cidrIn p e then []
  else if ! cidrIn e p then [p]
  else
    match fuel with
    | 0 => [p]
    | f + 1 =>
      let h := cidrHalves p
      cidrSubtract f h.1 e ++ cidrSubtract f h.2 e

/-- Modelled from the spec (§4.1): `nacaddr.ExcludeAddrs(include, exclude)`
subtracts each exclude prefix from every overlapping include prefix,
returning the CIDR set difference as covering prefixes. -/
def excludeAddrs (includes excludes : List Cidr) : List Cidr :=
  excludes.foldl (fun acc e => acc.flatMap (fun p => cidrSubtract (cidrWidth e) p e)) includes

/-! ## The policy IR

The parser (`policy.py`) is external to the snapshot; the data model below
follows the spec's §3 and the fields the two renderers read.  Python's
falsy empty string / empty list is modelled by `""` / `[]`. -/

/-- The enumerated term action (spec §3). -/
inductive PAction
  | accept
  | deny
  | reject
  | rejectTcpRst
  | next
deriving DecidableEq, Repr

/-- A policy term as the renderers consume it. -/
structure PTerm where
  name : String
  action : List PAction
  protocol : List String
  protocolExcept : List String
  source_address : List Cidr
  source_address_exclude : List Cidr
  destination_address : List Cidr
  destination_address_exclude : List Cidr
  address : List Cidr
  srcPfxs : List String
  dstPfxs : List String
  source_port : List (Nat × Nat)
  destination_port : List (Nat × Nat)
  port : List (Nat × Nat)
  icmp_type : List String
  option : List String
  logging : List String
  counter : String
  policer : String
  qos : String
  routing_instance : String
  loss_priority : String
  packet_length : String
  fragment_offset : String
  comment : List String
  owner : String
  expiration : Option Nat
  platform : List String
  platform_exclude : List String
  verbatim : List (String × String)
  ether_type : List String
  traffic_type : List String
  precedence : List Nat
  source_interface : String
  destination_interface : String
deriving DecidableEq, Repr

/-- A term with every field empty, used to build concrete examples. -/
def emptyTerm : PTerm where
  name := ""
  action := []
  protocol := []
  protocolExcept := []
  source_address := []
  source_address_exclude := []
  destination_address := []
  destination_address_exclude := []
  address := []
  srcPfxs := []
  dstPfxs := []
  source_port := []
  destination_port := []
  port := []
  icmp_type := []
  option := []
  logging := []
  counter := ""
  policer := ""
  qos := ""
  routing_instance := ""
  loss_priority := ""
  packet_length := ""
  fragment_offset := ""
  comment := []
  owner := ""
  expiration := none
  platform := []
  platform_exclude := []
  verbatim := []
  ether_type := []
  traffic_type := []
  precedence := []
  source_interface := ""
  destination_interface := ""

/-- One `target::` line of a header: a platform and its option words. -/
structure Target where
  platform : String
  options : List String
deriving DecidableEq, Repr

/-- A filter header. -/
structure Header where
  targets : List Target
  comment : List String
deriving DecidableEq, Repr

/-- Modelled from the spec (§6): the platforms a header names. -/
def Header.platforms (h : Header) : List String :=
  h.targets.map Target.platform

/-- Modelled from the spec (§6): `FilterOptions(platform)`, the ordered
option words of the target line for `platform` (the filter name first). -/
def Header.filterOptions (h : Header) (p : String) : List String :=
  match h.targets.find? (fun t => t.platform == p) with
  | some t => t.options
  | none => []

/-- Modelled from the spec (§6): `FilterName(platform)`. -/
def Header.filterName (h : Header) (p : String) : String :=
  (h.filterOptions p).headD ""

/-- A policy: ordered filters, each a header and its ordered terms. -/
structure Policy where
  filters : List (Header × List PTerm)
deriving DecidableEq, Repr

/-! ## Shared engine pieces modelled from the spec

These helpers live in the external `aclgenerator` module. -/

/-- Modelled from the spec (§4.4 / §7): `FixHighPorts`.  A term carrying
the stateless-reply marker is inapplicable and is dropped (`none`); when
connection tracking is disabled and the term uses the
`established`/`tcp-established` options with pure tcp/udp protocols, the
high destination ports are appended; otherwise the term passes through
unchanged. -/
def fixHighPorts (t : PTerm) (_af : String) (stateful : Bool) : Option PTerm :=
  if "stateless-reply" ∈ t.option then none
  else if (!stateful) && t.option.any (fun o => o == "established" || o == "tcp-established")
      && !t.protocol.isEmpty && t.protocol.all (fun p => p == "tcp" || p == "udp") then
    some { t with destination_port := t.destination_port ++ [(1024, 65535)] }
  else some t

/-- Modelled from the spec (§4.3): `FitIdentifier` for the Juniper
renderer's `FixTermLength`: a name within the platform's length limit (63
characters here) is returned unchanged, a longer one is truncated to the
limit. -/
def fixTermLength (name : String) : String :=
  if name.length ≤ 63 then name else ⟨name.data.take 63⟩

/-- Modelled from the spec (§4.2): the symbolic ICMP type table for IPv4. -/
def icmpTableV4 : List (String × Nat) :=
  [("echo-reply", 0), ("unreachable", 3), ("source-quench", 4),
   ("redirect", 5), ("echo-request", 8), ("router-advertisement", 9),
   ("router-solicitation", 10), ("time-exceeded", 11),
   ("parameter-problem", 12), ("timestamp-request", 13),
   ("timestamp-reply", 14), ("info-request", 15), ("info-reply", 16),
   ("mask-request", 17), ("mask-reply", 18)]

/-- Modelled from the spec (§4.2): the symbolic ICMP type table for IPv6. -/
def icmpTableV6 : List (String × Nat) :=
  [("destination-unreachable", 1), ("packet-too-big", 2),
   ("time-exceeded", 3), ("parameter-problem", 4), ("echo-request", 128),
   ("echo-reply", 129), ("multicast-listener-query", 130),
   ("router-solicit", 133), ("router-advertisement", 134),
   ("neighbor-solicit", 135), ("neighbor-advertisement", 136)]

/-- Modelled from the spec (§4.2): `NormalizeIcmpTypes`.  When the
protocol set has no icmp/icmpv6 the single empty-type sentinel `[""]` is
returned; otherwise each name is looked up in the version-specific table,
`none` signalling the validation error for a name absent from it. -/
def normalizeIcmpTypes (names protocols : List String) (v6 : Bool) : Option (List String) :=
  if !("icmp" ∈ protocols || "icmpv6" ∈ protocols) then some [""]
  else
    names.mapM (fun n =>
      ((if v6 then icmpTableV6 else icmpTableV4).lookup n).map toString)

/-- Modelled from the spec: `aclgenerator.WrapWords`, a greedy word wrap of
each comment line to the given width. -/
def wrapWords (comments : List String) (width : Nat) : List String :=
  comments.flatMap (fun c =>
    ((pSplitChar c ' ').foldl (fun (acc : List String) w =>
      match acc with
      | [] => [w]
      | cur :: rest =>
        if cur.length + 1 + w.length ≤ width then (cur ++ " " ++ w) :: rest
        else w :: cur :: rest) []).reverse)

/-- Modelled from the spec: `aclgenerator.AddRepositoryTags`, the fixed
repository id/date tag lines with a per-renderer line lead. -/
def addRepositoryTags (lead : String) : List String :=
  [lead ++ "$Id:$", lead ++ "$Date:$"]

/-! ## The iptables renderer (`lib/iptables.py`) -/

/-- The exception classes of `lib/iptables.py` (plus the
`aclgenerator.DuplicateTermError` raised from its `_TranslatePolicy`, the
validation error of the external ICMP normalizer, and the IndexError the
CPython runtime raises at the default-action write on an empty action
list). -/
inductive IptErr
  | termNameTooLong (msg : String)
  | badPorts (msg : String)
  | unsupportedFilterError (msg : String)
  | tcpEstablished (msg : String)
  | unsupportedDefaultAction (msg : String)
  | unsupportedTargetOption (msg : String)
  | duplicateTerm (name : String)
  | notImplemented (msg : String)
  | icmpBad (msg : String)
  | runtimeIndexError
deriving DecidableEq, Repr

/-- `str()` of a policy action. -/
def pactionStr : PAction → String
  | .accept => "accept"
  | .deny => "deny"
  | .reject => "reject"
  | .rejectTcpRst => "reject-with-tcp-rst"
  | .next => "next"

/-- The ordered abbreviation table of `Term._CheckTermLength`. -/
def abbreviationTable : List (String × String) :=
  [("bogons", "BGN"), ("bogon", "BGN"), ("reserved", "RSV"),
   ("rfc1918", "PRV"), ("rfc-1918", "PRV"), ("internet", "EXT"),
   ("global", "GBL"), ("internal", "INT"), ("customer", "CUST"),
   ("google", "GOOG"), ("ballmer", "ASS"), ("microsoft", "LOL"),
   ("china", "BAN"), ("border", "BDR"), ("service", "SVC"),
   ("router", "RTR"), ("transit", "TRNS"), ("experiment", "EXP"),
   ("established", "EST"), ("unreachable", "UNR"), ("fragment", "FRG"),
   ("accept", "OK"), ("discard", "DSC"), ("reject", "REJ"),
   ("replies", "ACK"), ("request", "REQ")]

/-- The substitution loop of `Term._CheckTermLength`: try each table entry
in order, returning as soon as the name fits. -/
def abbrevApply : List (String × String) → String → Nat → String
  | [], s, _ => s
  | (w, a) :: rest, s, m =>
    if s.length ≤ m then s else abbrevApply rest (s.replace w a) m

/-- `Term._CheckTermLength(term_name, term_max_len, abbreviate)`. -/
def checkTermLength (name : String) (maxLen : Nat) (abbrevOk : Bool) : Except IptErr String :=
  let t := if abbrevOk then abbrevApply abbreviationTable name maxLen else name
  if t.length ≤ maxLen then .ok t
  else
    .error (.termNameTooLong ("\nTerm " ++ t ++ " (originally " ++ name ++
      ") is too long. Limit is 24 characters (vs " ++ toString t.length ++
      ") and no abbreviations remain."))

/-- The multiport-budget port grouping of `Term._GeneratePortStatement`:
a single port costs 1 unit, a range 2; once the running total reaches the
14-unit budget the group is flushed.  The final (possibly empty) residue
group is always emitted. -/
def consolidatePorts : List (Nat × Nat) → List (Nat × Nat) → Nat → List (List (Nat × Nat))
  | [], cur, _ => [cur]
  | p :: rest, cur, count =>
    let c := count + (if p.1 = p.2 then 1 else 2)
    if 14 ≤ c then (cur ++ [p]) :: consolidatePorts rest [] 0
    else consolidatePorts rest (cur ++ [p]) c

/-- Port (range) rendering inside a port statement. -/
def portStr (p : Nat × Nat) : String :=
  if p.1 = p.2 then toString p.1 else toString p.1 ++ ":" ++ toString p.2

/-- `Term._GeneratePortStatement(ports, source, dest)`. -/
def genPortStatement (ports : List (Nat × Nat)) (src dst : Bool) : Except IptErr (List String) :=
  if ports.isEmpty then .ok []
  else do
    let dir ←
      if src && dst then throw (IptErr.badPorts "_GeneratePortStatement called ambiguously.")
      else if src then pure "s"
      else if dst then pure "d"
      else throw (IptErr.notImplemented "--port support not yet implemented.")
    let groups := consolidatePorts ports [] 0
    let multi := fun (g : List (Nat × Nat)) =>
      "-m multiport --" ++ dir ++ "ports " ++ String.intercalate "," (g.map portStr)
    let final :=
      match groups.getLastD [] with
      | [p] => "--" ++ dir ++ "port " ++ portStr p
      | g => multi g
    pure (groups.dropLast.map multi ++ [final])

/-- The renderer-side term of the iptables backend (`iptables.Term`): the
policy term plus the constructor arguments and the name computed by
`__init__`. -/
structure ITerm where
  term : PTerm
  filterName : String
  trackstate : Bool
  defaultAction : Option String
  af : String
  termName : String
deriving DecidableEq, Repr

/-- `iptables.Term.__init__`, which computes the chain-scoped term name
via `_CheckTermLength(name, 24, truncate)`. -/
def itermInit (t : PTerm) (filterName : String) (trackstate : Bool) (da : Option String) (af : String) (truncate : Bool) : Except IptErr ITerm := do
  let short ← checkTermLength t.name 24 truncate
  pure { term := t, filterName := filterName, trackstate := trackstate,
         defaultAction := da, af := af,
         termName := pyTake filterName 1 ++ "_" ++ short }

/-- `self._all_ips`: the wildcard prefix of the address family. -/
def allIps (af : String) : Cidr :=
  if af == "inet6" then ⟨6, 0, 0, ""⟩ else ⟨4, 0, 0, ""⟩

/-- `_ACTION_TABLE` as `__init__` leaves it for the given family. -/
def iptablesActionTable (af : String) : PAction → String
  | .accept => "-j ACCEPT"
  | .deny => "-j DROP"
  | .reject =>
    if af == "inet6" then "-j REJECT --reject-with adm-prohibited"
    else "-j REJECT --reject-with icmp-host-prohibited"
  | .rejectTcpRst => "-j REJECT --reject-with tcp-reset"
  | .next => "-j RETURN"

/-- `_PROTO_TABLE`. -/
def protoTable : List (String × String) :=
  [("icmpv6", "-p icmpv6"), ("icmp", "-p icmp"), ("tcp", "-p tcp"),
   ("udp", "-p udp"), ("all", "-p all"), ("esp", "-p esp"),
   ("ah", "-p ah"), ("gre", "-p gre")]

/-- `_TCP_FLAGS_TABLE`, iterated here in source order (the Python dict's
iteration order is unspecified but fixed per build). -/
def tcpFlagsTable : List (String × String) :=
  [("syn", "SYN"), ("ack", "ACK"), ("fin", "FIN"), ("rst", "RST"),
   ("urg", "URG"), ("psh", "PSH"), ("all", "ALL"), ("none", "NONE")]

/-- `_KNOWN_OPTIONS_MATCHERS`. -/
def knownOptionsMatchers : List (String × String) :=
  [("first-fragment", "-m u32 --u32 4&0x3FFF=0x2000"), ("initial", "--syn"),
   ("tcp-initial", "--syn"), ("sample", "")]

/-- Dotted-quad rendering of an IPv4 network address. -/
def v4str (n : Nat) : String :=
  toString (n / 16777216 % 256) ++ "." ++ toString (n / 65536 % 256) ++ "." ++
    toString (n / 256 % 256) ++ "." ++ toString (n % 256)

/-- Hexadecimal digits of a natural. -/
def hexStr (n : Nat) : String :=
  ⟨Nat.toDigits 16 n⟩

/-- Modelled from the spec: the textual form of an IPv6 network address
(the external address library prints it; full hextets are used here). -/
def v6str (n : Nat) : String :=
  String.intercalate ":" ((List.range 8).map (fun i => hexStr (n / 2 ^ (16 * (7 - i)) % 65536)))

/-- `str()` of a prefix: address, slash, prefix length. -/
def cidrStr (c : Cidr) : String :=
  (if c.version = 6 then v6str c.net else v4str c.net) ++ "/" ++ toString c.pfx

/-! ### The exclusion-strategy choice (`Term.__str__`, lines 201-237) -/

/-- The source-address set after applying `nacaddr.ExcludeAddrs`, when the
term has source excludes (`term_saddr_excluded`). -/
def termSaddrExcluded (t : PTerm) (af : String) : List Cidr :=
  if t.source_address_exclude.isEmpty then []
  else
    excludeAddrs
      (if t.source_address.isEmpty then [allIps af] else t.source_address)
      t.source_address_exclude

/-- The destination-address set after applying `nacaddr.ExcludeAddrs`. -/
def termDaddrExcluded (t : PTerm) (af : String) : List Cidr :=
  if t.destination_address_exclude.isEmpty then []
  else
    excludeAddrs
      (if t.destination_address.isEmpty then [allIps af] else t.destination_address)
      t.destination_address_exclude

/-- `bailout_count`: the estimated line cost of the bailout-jump strategy
(one early jump per excluded prefix, plus the unmodified include
cross-product; empty include sides count 1). -/
def bailoutCount (t : PTerm) : Nat :=
  t.source_address_exclude.length + t.destination_address_exclude.length +
    max t.source_address.length 1 * max t.destination_address.length 1

/-- `exclude_count`: the estimated line cost of the full-expansion
strategy (the cross-product of the `ExcludeAddrs` results; empty sides
count 1). -/
def excludeCount (t : PTerm) (af : String) : Nat :=
  max (termSaddrExcluded t af).length 1 * max (termDaddrExcluded t af).length 1

/-- The four address lists the main rendering loops consume, as the
strategy branch of `Term.__str__` leaves them: when `exclude_count <
bailout_count` the exclude lists are cleared and the (nonempty) expanded
sets replace the includes (full expansion); otherwise the original lists
are kept and the excludes become bailout jumps. -/
structure AddrChoice where
  exclSrc : List Cidr
  exclDst : List Cidr
  srcAddrs : List Cidr
  dstAddrs : List Cidr
deriving DecidableEq, Repr

/-- The exclusion-strategy selection of `Term.__str__`. -/
def chooseAddrs (t : PTerm) (af : String) : AddrChoice :=
  let saddr := if t.source_address.isEmpty then [allIps af] else t.source_address
  let daddr := if t.destination_address.isEmpty then [allIps af] else t.destination_address
  let sx := termSaddrExcluded t af
  let dx := termDaddrExcluded t af
  if excludeCount t af < bailoutCount t then
    { exclSrc := [], exclDst := [],
      srcAddrs := if !sx.isEmpty then sx else saddr,
      dstAddrs := if !dx.isEmpty then dx else daddr }
  else
    { exclSrc := t.source_address_exclude, exclDst := t.destination_address_exclude,
      srcAddrs := saddr, dstAddrs := daddr }

/-- `Term._FormatPart`.  The `options` list is the renderer term's mutable
`self.options` when called from the main loops (an empty fresh list when
called from the bailout loops); the possibly grown list is returned
alongside the generated lines, since the growth persists on the
instance. -/
def formatPart (it : ITerm) (optionsIn : List String) (protocol : String)
    (sa : Option Cidr) (sport : List (Nat × Nat)) (da : Option Cidr)
    (dport : List (Nat × Nat)) (tcpFlags : List String) (icmpT : String)
    (track : List String × List String) (sint dint : String)
    (logHits : Bool) (action : String) : Except IptErr (List String × List String) := do
  if (match sa with
      | some a => (it.af == "inet" && a.version != 4) || (it.af == "inet6" && a.version != 6)
      | none => false) then
    return ([], optionsIn)
  if (match da with
      | some a => (it.af == "inet" && a.version != 4) || (it.af == "inet6" && a.version != 6)
      | none => false) then
    return ([], optionsIn)
  let filterTop := "-A " ++ it.termName
  let src :=
    match sa with
    | none => ""
    | some a => if cidrEq a (allIps it.af) then "" else "-s " ++ cidrStr a
  let dst :=
    match da with
    | none => ""
    | some a => if cidrEq a (allIps it.af) then "" else "-d " ++ cidrStr a
  let sourceInt := if sint ≠ "" then "-i " ++ sint else ""
  let destInt := if dint ≠ "" then "-o " ++ dint else ""
  let logJump := if logHits then "-j LOG --log-prefix " ++ it.term.name ++ " " else ""
  let proto :=
    match protoTable.lookup protocol with
    | some p => p
    | none => if protocol ≠ "" then "-p " ++ protocol else ""
  let alreadyStateful := optionsIn.any (fun o => containsSub o "state")
  let options1 :=
    if it.trackstate && !alreadyStateful && containsSub action "ACCEPT" then
      optionsIn ++ ["-m state --state NEW,ESTABLISHED,RELATED"]
    else optionsIn
  let flags :=
    if !tcpFlags.isEmpty || !track.1.isEmpty then
      "--tcp-flags " ++ String.intercalate "," (tcpFlags ++ track.1).eraseDups ++
        " " ++ String.intercalate "," (tcpFlags ++ track.2).eraseDups
    else ""
  let icmpStr :=
    if icmpT == "" then ""
    else if protocol == "icmpv6" then "--icmpv6-type " ++ icmpT
    else "--icmp-type " ++ icmpT
  let sports ← if !sport.isEmpty then genPortStatement sport true false else pure [""]
  let dports ← if !dport.isEmpty then genPortStatement dport false true else pure [""]
  let lines := sports.flatMap (fun sp =>
    dports.flatMap (fun dp =>
      let swap := containsSub sp "multiport" && !containsSub dp "multiport"
      let sp2 := if swap then dp else sp
      let dp2 := if swap then sp else dp
      let rval := filterTop ::
        ([proto, flags, sp2, dp2, icmpStr, src, dst,
          String.intercalate " " options1, sourceInt, destInt].filter (fun v => v ≠ ""))
      (if logJump ≠ "" then [String.intercalate " " (rval ++ [logJump])] else []) ++
        [String.intercalate " " (rval ++ [action])]))
  return (lines, options1)

/-- The option-processing loop of `Term.__str__` (lines 267-298),
returning the grown option list, the collected tcp flags and the
stateless tcp tracking tuples. -/
def itermOptionsLoop (it : ITerm) (protocol : List String) (options0 : List String) :
    Except IptErr (List String × List String × List (List String × List String)) :=
  it.term.option.foldlM (fun st nextOpt => do
    let (opts, flags, track) := st
    let (opts1, track1) ←
      if (pStartsWith nextOpt "established" || pStartsWith nextOpt "tcp-established")
          && !((opts.map pstrip).contains "ESTABLISHED") then
        if pStartsWith nextOpt "tcp-established" && protocol ≠ ["tcp"] then
          throw (IptErr.tcpEstablished
            ("\noption tcp-established can only be applied for proto tcp. \nError in term: "
              ++ it.term.name))
        else if it.trackstate then
          pure (opts ++ ["-m state --state ESTABLISHED,RELATED"], track)
        else if protocol == ["tcp"] then
          pure (opts, [(["ACK"], ["ACK"]), (["SYN", "FIN", "ACK", "RST"], ["RST"])])
        else pure (opts, track)
      else pure (opts, track)
    let flags1 := flags ++
      (tcpFlagsTable.filter (fun kv => pStartsWith nextOpt kv.1)).map (fun kv => kv.2)
    let opts2 := opts1 ++
      (match knownOptionsMatchers.lookup nextOpt with
       | some v => [v]
       | none => [])
    pure (opts2, flags1, track1)) (options0, [], [])

/-- `iptables.Term.__str__`.  The returned pair is the rendered text and
the instance's `self.options` list afterwards (the only instance state the
method grows); a fresh instance starts with `[]`. -/
def renderITerm (it : ITerm) (options0 : List String) : Except IptErr (String × List String) := do
  let t := it.term
  if !t.platform.isEmpty && !t.platform.contains "iptables" then
    return ("", options0)
  if !t.platform_exclude.isEmpty && t.platform_exclude.contains "iptables" then
    return ("", options0)
  if (it.af == "inet6" && t.protocol.contains "icmp")
      || (it.af == "inet" && t.protocol.contains "icmpv6") then
    return ("# Term " ++ t.name ++ "\n# not rendered due to protocol/AF mismatch.", options0)
  if !t.verbatim.isEmpty then
    return (String.intercalate "\n"
      ((t.verbatim.filter (fun v => v.1 == "iptables")).map (fun v => v.2)), options0)
  if !t.ether_type.isEmpty then
    throw (IptErr.unsupportedFilterError
      ("\nether_type unsupported by iptables \nError in term " ++ t.name))
  if !t.address.isEmpty then
    throw (IptErr.unsupportedFilterError
      ("\naddress unsupported by iptables - specify source or dest \nError in term: " ++ t.name))
  if !t.port.isEmpty then
    throw (IptErr.unsupportedFilterError
      ("\nport unsupported by iptables - specify source or dest \nError in term: " ++ t.name))
  let retStr1 := ["-N " ++ it.termName, "-A " ++ it.filterName ++ " -j " ++ it.termName]
  let cmw := if 92 - it.termName.length < 40 then 40 else 92 - it.termName.length
  let comments := wrapWords t.comment cmw
  let commentLines :=
    match comments with
    | [] => []
    | c0 :: _ =>
      if c0 == "" then []
      else (comments.filter (fun l => l ≠ "")).map (fun l =>
        "-A " ++ it.termName ++ " -m comment --comment \"" ++ l ++ "\"")
  if t.action.isEmpty then
    throw IptErr.runtimeIndexError
  let act0 := pactionStr (t.action.headD PAction.accept)
  if !t.srcPfxs.isEmpty || !t.dstPfxs.isEmpty then
    if act0 ≠ "accept" && act0 ≠ "next" then
      throw (IptErr.unsupportedFilterError
        ("\nTerm " ++ t.name ++ " has action " ++ act0 ++
          " with source_prefix or destination_prefix,  which is unsupported in iptables iptables output."))
    return ("# skipped " ++ t.name ++ " due to source or destination prefix rule", options0)
  let protocol := if t.protocol.isEmpty then ["all"] else t.protocol
  if !t.protocolExcept.isEmpty then
    throw (IptErr.unsupportedFilterError
      ("\n " ++ t.name ++ " protocol_except logic not currently supported."))
  let choice := chooseAddrs t it.af
  let icmpTypes ←
    match (if t.icmp_type.isEmpty then some [""]
           else normalizeIcmpTypes t.icmp_type protocol (it.af == "inet6")) with
    | some l => pure l
    | none => throw (IptErr.icmpBad ("unknown icmp-type in term " ++ t.name))
  let logHits := !t.logging.isEmpty
  let (opts1, tcpFlags, trackOpts) ← itermOptionsLoop it protocol options0
  let opts2 := opts1 ++
    (if t.packet_length ≠ "" then ["-m length --length " ++ t.packet_length.replace "-" ":"] else [])
  let opts3 := opts2 ++
    (if t.fragment_offset ≠ "" then ["-m u32 --u32 4&0x1FFF=" ++ t.fragment_offset.replace "-" ":"] else [])
  let exclSrcLines ← choice.exclSrc.foldlM (fun acc a => do
    let (ls, _) ← formatPart it [] "" (some a) [] none [] [] "" ([], []) "" "" false
      (iptablesActionTable it.af PAction.next)
    pure (acc ++ ls)) ([] : List String)
  let exclDstLines ← choice.exclDst.foldlM (fun acc a => do
    let (ls, _) ← formatPart it [] "" none [] (some a) [] [] "" ([], []) "" "" false
      (iptablesActionTable it.af PAction.next)
    pure (acc ++ ls)) ([] : List String)
  let combos := choice.srcAddrs.flatMap (fun sa =>
    choice.dstAddrs.flatMap (fun da =>
      icmpTypes.flatMap (fun ic =>
        protocol.map (fun pr => (sa, da, ic, pr)))))
  let trackList := if trackOpts.isEmpty then [(([] : List String), ([] : List String))] else trackOpts
  let seed := (retStr1 ++ commentLines ++ exclSrcLines ++ exclDstLines, opts3)
  let (allLines, optsF) ← combos.foldlM (fun acc c => do
    let (sa, da, ic, pr) := c
    trackList.foldlM (fun acc2 tm => do
      let (ls, o') ← formatPart it acc2.2 pr (some sa) t.source_port (some da)
        t.destination_port tcpFlags ic tm t.source_interface t.destination_interface
        logHits (iptablesActionTable it.af (t.action.headD PAction.accept))
      pure (acc2.1 ++ ls, o')) acc) seed
  return (String.intercalate "\n" (allLines.filter (fun v => v ≠ "")), optsF)

/-! ### `Iptables._TranslatePolicy` -/

/-- `good_default_actions`. -/
def goodDefaultActions : List String := ["ACCEPT", "DROP"]

/-- `good_afs`. -/
def goodAfs : List String := ["inet", "inet6"]

/-- `good_options`. -/
def goodOptions : List String := ["nostate", "truncatenames"]

/-- The option check of `_TranslatePolicy`: every word after the filter
name must be a known action, family or option. -/
def checkFilterOptions : List String → Except IptErr Unit
  | [] => .ok ()
  | o :: rest =>
    if (goodDefaultActions ++ goodAfs ++ goodOptions).contains o then
      checkFilterOptions rest
    else
      .error (.unsupportedTargetOption
        ("\nUnsupported option found in iptables target definition: " ++ o))

/-- The address-family scan of `_TranslatePolicy`: at most one of
`inet`/`inet6` may appear; absent both, the family defaults to `inet`. -/
def determineAf (opts : List String) : Except IptErr String :=
  if opts.contains "inet" && opts.contains "inet6" then
    .error (.unsupportedFilterError
      "\nMay only specify one of inet, inet6 in filter options")
  else if opts.contains "inet" then .ok "inet"
  else if opts.contains "inet6" then .ok "inet6"
  else .ok "inet"

/-- The default-action override scan over the header's target lines. -/
def headerDefaultAction (h : Header) (cur : Option String) : Option String :=
  h.targets.foldl (fun acc tgt =>
    if tgt.platform == "iptables" && tgt.options.length > 1 then
      tgt.options.foldl (fun a arg =>
        if goodDefaultActions.contains arg then some arg else a) acc
    else acc) cur

/-- The default-action validity check of `_TranslatePolicy`. -/
def checkDefaultAction (da : Option String) : Except IptErr Unit :=
  match da with
  | some d =>
    if goodDefaultActions.contains d then .ok ()
    else .error (.unsupportedDefaultAction
      ("\nOnly ACCEPT, DROP default filter action allowed; " ++ d ++ " used."))
  | none => .ok ()

/-- One translated iptables filter. -/
structure IPolicyFilter where
  header : Header
  filterName : String
  filterType : String
  defaultAction : Option String
  terms : List ITerm
deriving DecidableEq, Repr

/-- The term loop of `Iptables._TranslatePolicy`: the duplicate-name check
comes first on every term; skipped terms (stateless-reply, expired) still
record their name. -/
def iptablesAddTerms (fname : String) (stateful : Bool) (da : Option String)
    (ftype : String) (truncate : Bool) (today : Nat) :
    List PTerm → List String → Except IptErr (List ITerm)
  | [], _ => .ok []
  | t :: rest, seen =>
    if seen.contains t.name then
      .error (.duplicateTerm t.name)
    else
      match fixHighPorts t ftype stateful with
      | none => iptablesAddTerms fname stateful da ftype truncate today rest (t.name :: seen)
      | some t2 =>
        if (match t2.expiration with | some d => decide (d ≤ today) | none => false) then
          iptablesAddTerms fname stateful da ftype truncate today rest (t.name :: seen)
        else do
          let it ← itermInit t2 fname stateful da ftype truncate
          let rest' ← iptablesAddTerms fname stateful da ftype truncate today rest (t.name :: seen)
          .ok (it :: rest')

/-- One header of `Iptables._TranslatePolicy`; `state` carries the
`default_action` and `all_protocols_stateful` variables, which the source
initialises once outside the header loop. -/
def iptablesTranslateFilter (today : Nat) (state : Option String × Bool)
    (hdr : Header) (terms : List PTerm) :
    Except IptErr (Option IPolicyFilter × (Option String × Bool)) :=
  if !(hdr.platforms.contains "iptables") then .ok (none, state)
  else do
    let (da0, stateful0) := state
    let fopts := (hdr.filterOptions "iptables").drop 1
    let fname := hdr.filterName "iptables"
    checkFilterOptions fopts
    let stateful := if fopts.contains "nostate" then false else stateful0
    let ftype ← determineAf fopts
    let da1 := if fname == "FORWARD" then some "DROP" else da0
    let da2 := headerDefaultAction hdr da1
    checkDefaultAction da2
    let its ← iptablesAddTerms fname stateful da2 ftype
      (fopts.contains "truncatenames") today terms []
    .ok (some { header := hdr, filterName := fname, filterType := ftype,
                defaultAction := da2, terms := its }, (da2, stateful))

/-- `Iptables._TranslatePolicy(pol)` (dates as day numbers). -/
def iptablesTranslate (pol : Policy) (today : Nat) : Except IptErr (List IPolicyFilter) := do
  let (acc, _) ← pol.filters.foldlM (fun st filt => do
    let (acc, vars) := st
    let (f?, vars') ← iptablesTranslateFilter today vars filt.1 filt.2
    pure (acc ++ (match f? with | some f => [f] | none => []), vars'))
    (([] : List IPolicyFilter), ((none : Option String), true))
  pure acc

/-! ## The Juniper renderer (`lib/juniper.py`) -/

/-- The exception classes of `lib/juniper.py` (plus the duplicate-term
error raised in `_TranslatePolicy`, the `ValueError` of `Term.__init__`,
and the validation error of the external ICMP normalizer). -/
inductive JErr
  | portProto (msg : String)
  | tcpEstNonTcp (msg : String)
  | duplicateTerm (msg : String)
  | unsupportedFilter (msg : String)
  | precedenceErr (msg : String)
  | indentation (msg : String)
  | valueErr (msg : String)
  | icmpBad (msg : String)
deriving DecidableEq, Repr

/-- The indentation-tracked line builder `juniper.Config`. -/
structure JConfig where
  indent : Int
  initialIndent : Int
  tabstop : Int
  lines : List String
deriving DecidableEq, Repr

/-- `Config.Append(line, verbatim)`: a line ending in `}` first shrinks
the indent (underflow is fatal), every non-verbatim line is emitted
stripped at the current indent, and a line ending in `space-brace` grows
the indent afterwards. -/
def jconfigAppend (cfg : JConfig) (line : String) (verbatim : Bool) : Except JErr JConfig :=
  if verbatim then .ok { cfg with lines := cfg.lines ++ [line] }
  else if pEndsWith line "\x7d" then
    let ind := cfg.indent - cfg.tabstop
    if ind < cfg.initialIndent then .error (.indentation "Too many close braces.")
    else .ok { cfg with indent := ind, lines := cfg.lines ++ [spacesN ind ++ pstrip line] }
  else
    let lines' := cfg.lines ++ [spacesN cfg.indent ++ pstrip line]
    if pEndsWith line " \x7b" then
      .ok { cfg with indent := cfg.indent + cfg.tabstop, lines := lines' }
    else .ok { cfg with lines := lines' }

/-- Append a run of lines. -/
def jAppendAll (cfg : JConfig) (ls : List String) : Except JErr JConfig :=
  ls.foldlM (fun c l => jconfigAppend c l false) cfg

/-- `Config.__str__`: unbalanced blocks are fatal. -/
def jconfigStr (cfg : JConfig) : Except JErr String :=
  if cfg.indent ≠ cfg.initialIndent then
    .error (.indentation ("Expected indent " ++ toString cfg.initialIndent ++
      " but got " ++ toString cfg.indent))
  else .ok (String.intercalate "\n" cfg.lines)

/-- The renderer-side term of the Juniper backend (`juniper.Term`): the
policy term, the filter's family, and the instance's mutable
`extra_actions` list. -/
structure JTerm where
  term : PTerm
  termType : String
  extraActions : List String
deriving DecidableEq, Repr

/-- `juniper.Term.__init__`. -/
def jtermInit (t : PTerm) (tt : String) : Except JErr JTerm :=
  if tt == "inet" || tt == "inet6" || tt == "bridge" then .ok ⟨t, tt, []⟩
  else .error (.valueErr ("Unknown Filter Type: " ++ tt))

/-- `_TERM_TYPE`: the per-address-family keyword lookup table. -/
def jTermTypeTable : List (String × List (String × String)) :=
  [("inet",
    [("addr", "address"), ("saddr", "source-address"),
     ("daddr", "destination-address"), ("protocol", "protocol"),
     ("protocol-except", "protocol-except"), ("tcp-est", "tcp-established")]),
   ("inet6",
    [("addr", "address"), ("saddr", "source-address"),
     ("daddr", "destination-address"), ("protocol", "next-header"),
     ("protocol-except", "next-header-except"), ("tcp-est", "tcp-established")]),
   ("bridge",
    [("addr", "ip-address"), ("saddr", "ip-source-address"),
     ("daddr", "ip-destination-address"), ("protocol", "ip-protocol"),
     ("protocol-except", "ip-protocol-except"),
     ("tcp-est", "tcp-flags \"(ack|rst)\"")])]

/-- `family_keywords` lookup. -/
def familyKeyword (tt k : String) : String :=
  match (jTermTypeTable.lookup tt).bind (fun tbl => tbl.lookup k) with
  | some v => v
  | none => ""

/-- `_ACTIONS`. -/
def jTermActions : PAction → String
  | .accept => "accept"
  | .deny => "discard"
  | .reject => "reject"
  | .next => "next term"
  | .rejectTcpRst => "reject tcp-reset"

/-- Modelled from the spec: `aclgenerator.Term.AF_MAP`. -/
def afMap (tt : String) : Nat :=
  if tt == "inet6" then 6 else 4

/-- Modelled from the spec: `policy.Term.GetAddressOfVersion`, the
addresses of one field restricted to one IP version. -/
def getAddressOfVersion (addrs : List Cidr) (v : Nat) : List Cidr :=
  addrs.filter (fun a => a.version == v)

/-- Python `str.lower()`. -/
def pyLower (s : String) : String :=
  ⟨s.data.map Char.toLower⟩

/-- `Term._Group` for a list already rendered to strings: one element is
emitted bare with `;`, several are bracketed. -/
def jGroupGeneric (elems : List String) : String :=
  match elems with
  | [] => ";"
  | [e] => e ++ ";"
  | es => "[ " ++ String.intercalate " " es ++ " ];"

/-- `Term._FormattedGroup` for a port tuple: hyphenate proper ranges. -/
def portRangeStr (p : Nat × Nat) : String :=
  if p.1 = p.2 then toString p.1 else toString p.1 ++ "-" ++ toString p.2

/-- `Term._MinimizePrefixes(include, exclude)`: drop the include prefixes
with an exact match in the exclude list; keep exactly the exclude
prefixes contained in some surviving include prefix; preserve order. -/
def minimizePrefixes (includes excludes : List Cidr) : List Cidr × List Cidr :=
  let includeResult := includes.filter (fun ip => !excludes.any (fun e => cidrEq e ip))
  let excludeResult := excludes.filter (fun e => includeResult.any (fun ip => cidrIn e ip))
  (includeResult, excludeResult)

/-- The line-splitting loop of `Term._Comment`; `fuel` bounds the
iterations (the Python loop fails to terminate when the width underflows,
which no rendered v4 prefix reaches). -/
def jCommentLoop (fuel : Nat) (indentation : Nat) (lengthEol : Int)
    (comment : String) (text : String) (acc : List String) : List String :=
  match fuel with
  | 0 => acc
  | f + 1 =>
    if text == "" then acc
    else
      let newEol : Int :=
        if (text.length : Int) > lengthEol then
          let r := pyRfindSpace (pyTake text lengthEol)
          if r ≤ 0 then lengthEol else r
        else lengthEol
      let line := comment ++ " " ++ pstrip (pyTake text newEol)
      jCommentLoop f indentation lengthEol (spacesN (indentation : Int) ++ "**")
        (pyDrop text newEol) (acc ++ [line])

/-- `Term._Comment(addr, exclude, line_length)`. -/
def jComment (addr : Cidr) (excl : Bool) (lineLen : Nat) : String :=
  let indentation := (if excl then 21 else 14) + 12 + (cidrStr addr).length
  let lengthEol : Int := 77 - (indentation : Int)
  if addr.text == "" then ""
  else
    let lineLen' := if lineLen = 0 then addr.text.length else lineLen
    if containsSub addr.text "/*" || containsSub addr.text "*/" then ""
    else
      let text : String := ⟨addr.text.data.take lineLen'⟩
      let ls := jCommentLoop (text.length + 1) indentation lengthEol " /*" text []
      match ls.reverse with
      | [] => ""
      | lastL :: restRev =>
        String.intercalate "\n" (restRev.reverse ++ [lastL ++ " */"])

/-- The option loop of `juniper.Term.__str__` (lines 211-245): builds the
`from_str` lines and the additions to the instance's `extra_actions`. -/
def jOptionStep (t : PTerm) (tt : String) (st : List String × List String)
    (opt : String) : Except JErr (List String × List String) := do
    let (fromStr, extra) := st
    if pStartsWith opt "sample" then pure (fromStr, extra ++ ["sample"])
    else if pStartsWith opt "established" then
      if t.protocol == ["tcp"] && !(fromStr.contains "tcp-established;") then
        pure (fromStr ++ [familyKeyword tt "tcp-est" ++ ";"], extra)
      else pure (fromStr, extra)
    else if pStartsWith opt "tcp-established" then
      let flag := familyKeyword tt "tcp-est" ++ ";"
      if t.protocol == ["tcp"] then
        if !(fromStr.contains flag) then pure (fromStr ++ [flag], extra)
        else pure (fromStr, extra)
      else
        throw (JErr.tcpEstNonTcp
          ("tcp-established can only be used with tcp protocol in term " ++ t.name))
    else if pStartsWith opt "rst" then pure (fromStr ++ ["tcp-flags \"rst\";"], extra)
    else if pStartsWith opt "initial" && t.protocol.contains "tcp" then
      pure (fromStr ++ ["tcp-initial;"], extra)
    else if pStartsWith opt "first-fragment" then pure (fromStr ++ ["first-fragment;"], extra)
    else pure (fromStr ++ [opt ++ ";"], extra)

/-- The option loop itself: a fold of `jOptionStep` over the term's
options. -/
def jOptionsLoop (t : PTerm) (tt : String) : Except JErr (List String × List String) :=
  t.option.foldlM (jOptionStep t tt) ([], [])

/-- The match-criteria test deciding whether a `from { }` block is
emitted at all (`juniper.Term.__str__`, lines 251-263). -/
def hasMatchCriteria (t : PTerm) : Bool :=
  !t.address.isEmpty || !t.destination_address.isEmpty || !t.dstPfxs.isEmpty ||
  !t.destination_port.isEmpty || !t.precedence.isEmpty || !t.protocol.isEmpty ||
  !t.protocolExcept.isEmpty || !t.port.isEmpty || !t.source_address.isEmpty ||
  !t.srcPfxs.isEmpty || !t.source_port.isEmpty || !t.ether_type.isEmpty ||
  !t.traffic_type.isEmpty

/-- The lines of the comment block (`/* ** ... */`). -/
def jCommentBlockLines (comment : List String) : List String :=
  "/*" :: (comment.flatMap (fun c => (pSplitChar c '\n').map (fun l => "** " ++ l))) ++ ["*/"]

/-- The lines inside the `then { }` block, in source order. -/
def thenContentLines (t : PTerm) (extra : List String) : List String :=
  t.logging.map (fun lt => if lt == "local" then "log;" else "syslog;") ++
  (if t.routing_instance ≠ "" then ["routing-instance " ++ t.routing_instance ++ ";"] else []) ++
  (if t.counter ≠ "" then ["count " ++ t.counter ++ ";"] else []) ++
  (if t.policer ≠ "" then ["policer " ++ t.policer ++ ";"] else []) ++
  (if t.qos ≠ "" then ["forwarding-class " ++ t.qos ++ ";"] else []) ++
  (if t.loss_priority ≠ "" then ["loss-priority " ++ t.loss_priority ++ ";"] else []) ++
  extra.map (fun a => a ++ ";") ++
  (if t.routing_instance == "" then t.action.map (fun a => jTermActions a ++ ";") else [])

/-- Modelled from the spec: the `NO_AF_LOG_FORMAT` warning template of the
external `aclgenerator` module. -/
def mkNoAfWarn (term direction af : String) : String :=
  "Term " ++ term ++ " will not be rendered, as it has " ++ direction ++
    " address match specified but no addresses of " ++ af ++ " family."

/-- The `from { }` block of `juniper.Term.__str__` (lines 266-397).
`.ok (none, warns)` models the three `return ''` paths (a side with
addresses but none of the filter's family); `.ok (some cfg, [])` is the
completed block. -/
def jFromBlock (t1 : PTerm) (tt : String) (fromStr : List String) (cfg : JConfig) :
    Except JErr (Option JConfig × List String) := do
  let cfgA ← jconfigAppend cfg "from \x7b" false
  let termAf := afMap tt
  let address := getAddressOfVersion t1.address termAf
  if address.isEmpty && !t1.address.isEmpty then
    return (none, [mkNoAfWarn t1.name "" tt])
  let cfgB ←
    if !address.isEmpty then do
      let c1 ← jconfigAppend cfgA (familyKeyword tt "addr" ++ " \x7b") false
      let c2 ← jAppendAll c1 (address.map (fun a => cidrStr a ++ ";" ++ jComment a false 132))
      jconfigAppend c2 "\x7d" false
    else pure cfgA
  let (sourceAddress, sourceAddressExclude) :=
    minimizePrefixes (getAddressOfVersion t1.source_address termAf)
      (getAddressOfVersion t1.source_address_exclude termAf)
  if sourceAddress.isEmpty && !t1.source_address.isEmpty then
    return (none, [mkNoAfWarn t1.name "source" tt])
  let cfgC ←
    if !sourceAddress.isEmpty then do
      let c1 ← jconfigAppend cfgB (familyKeyword tt "saddr" ++ " \x7b") false
      let c2 ← jAppendAll c1 (sourceAddress.map (fun a => cidrStr a ++ ";" ++ jComment a false 132))
      let c3 ← jAppendAll c2 (sourceAddressExclude.map (fun a =>
        cidrStr a ++ " except;" ++ jComment a true 132))
      jconfigAppend c3 "\x7d" false
    else pure cfgB
  let (destinationAddress, destinationAddressExclude) :=
    minimizePrefixes (getAddressOfVersion t1.destination_address termAf)
      (getAddressOfVersion t1.destination_address_exclude termAf)
  if destinationAddress.isEmpty && !t1.destination_address.isEmpty then
    return (none, [mkNoAfWarn t1.name "destination" tt])
  let cfgD ←
    if !destinationAddress.isEmpty then do
      let c1 ← jconfigAppend cfgC (familyKeyword tt "daddr" ++ " \x7b") false
      let c2 ← jAppendAll c1 (destinationAddress.map (fun a => cidrStr a ++ ";" ++ jComment a false 132))
      let c3 ← jAppendAll c2 (destinationAddressExclude.map (fun a =>
        cidrStr a ++ " except;" ++ jComment a true 132))
      jconfigAppend c3 "\x7d" false
    else pure cfgC
  let cfgE ←
    if !t1.srcPfxs.isEmpty then do
      let c1 ← jconfigAppend cfgD "source-prefix-list \x7b" false
      let c2 ← jAppendAll c1 (t1.srcPfxs.map (fun p => p ++ ";"))
      jconfigAppend c2 "\x7d" false
    else pure cfgD
  let cfgF ←
    if !t1.dstPfxs.isEmpty then do
      let c1 ← jconfigAppend cfgE "destination-prefix-list \x7b" false
      let c2 ← jAppendAll c1 (t1.dstPfxs.map (fun p => p ++ ";"))
      jconfigAppend c2 "\x7d" false
    else pure cfgE
  let cfgG ←
    if !t1.protocol.isEmpty then
      jconfigAppend cfgF (familyKeyword tt "protocol" ++ " " ++
        jGroupGeneric (t1.protocol.map pyLower)) false
    else pure cfgF
  let cfgH ←
    if !t1.protocolExcept.isEmpty then
      jconfigAppend cfgG (familyKeyword tt "protocol-except" ++ " " ++
        jGroupGeneric (t1.protocolExcept.map pyLower)) false
    else pure cfgG
  let cfgI ←
    if !t1.port.isEmpty then
      jconfigAppend cfgH ("port " ++ jGroupGeneric (t1.port.map portRangeStr)) false
    else pure cfgH
  let cfgJ ←
    if !t1.source_port.isEmpty then
      jconfigAppend cfgI ("source-port " ++ jGroupGeneric (t1.source_port.map portRangeStr)) false
    else pure cfgI
  let cfgK ←
    if !t1.destination_port.isEmpty then
      jconfigAppend cfgJ ("destination-port " ++
        jGroupGeneric (t1.destination_port.map portRangeStr)) false
    else pure cfgJ
  let cfgL ← jAppendAll cfgK fromStr
  let cfgM ←
    if t1.packet_length ≠ "" then
      jconfigAppend cfgL ("packet-length " ++ t1.packet_length ++ ";") false
    else pure cfgL
  let cfgN ←
    if t1.fragment_offset ≠ "" then
      jconfigAppend cfgM ("fragment-offset " ++ t1.fragment_offset ++ ";") false
    else pure cfgM
  let icmpTypes ←
    match (if t1.icmp_type.isEmpty then some [""]
           else normalizeIcmpTypes t1.icmp_type t1.protocol (tt == "inet6")) with
    | some l => pure l
    | none => throw (JErr.icmpBad ("unknown icmp-type in term " ++ t1.name))
  let cfgO ←
    if icmpTypes ≠ [""] then
      jconfigAppend cfgN ("icmp-type " ++ jGroupGeneric icmpTypes) false
    else pure cfgN
  let cfgP ←
    if !t1.ether_type.isEmpty then
      jconfigAppend cfgO ("ether-type " ++ jGroupGeneric (t1.ether_type.map pyLower)) false
    else pure cfgO
  let cfgQ ←
    if !t1.traffic_type.isEmpty then
      jconfigAppend cfgP ("traffic-type " ++ jGroupGeneric (t1.traffic_type.map pyLower)) false
    else pure cfgP
  let cfgR ←
    match t1.precedence.find? (fun p => decide (8 ≤ p)) with
    | some p =>
      throw (JErr.precedenceErr ("Precedence value " ++ toString p ++
        " is out of bounds in " ++ t1.name))
    | none =>
      if !t1.precedence.isEmpty then
        jconfigAppend cfgQ ("precedence " ++ jGroupGeneric
          (((t1.precedence.eraseDups).insertionSort (· ≤ ·)).map toString)) false
      else pure cfgQ
  let cfgS ← jconfigAppend cfgR "\x7d" false
  return (some cfgS, [])

/-- The owner-comment mutation at the top of `juniper.Term.__str__`: when
the term has an owner, an `Owner:` line is appended to the policy term's
comment list (in place, in the Python). -/
def jOwnerComment (t : PTerm) : PTerm :=
  if t.owner ≠ "" then { t with comment := t.comment ++ ["Owner: " ++ t.owner] } else t

/-- `juniper.Term.__str__`, kept at the `Config` level.  The result is the
final config (`none` models the paths that return the empty string), the
warnings logged, and the term state afterwards: the method appends an
`Owner:` comment to the policy term and grows the instance's
`extra_actions` list. -/
def renderJTermConfig (jt : JTerm) : Except JErr (Option JConfig × List String × JTerm) :=
  let t := jt.term
  if !t.platform.isEmpty && !t.platform.contains "juniper" then .ok (none, [], jt)
  else if !t.platform_exclude.isEmpty && t.platform_exclude.contains "juniper" then
    .ok (none, [], jt)
  else
    let cfg0 : JConfig := { indent := 12, initialIndent := 12, tabstop := 4, lines := [] }
    if (jt.termType == "inet6" && t.protocol.contains "icmp")
        || (jt.termType == "inet" && t.protocol.contains "icmpv6") then
      jAppendAll cfg0
          ["/* Term " ++ t.name, "** not rendered due to protocol/AF mismatch.", "*/"] >>=
        fun cfg => .ok (some cfg, [], jt)
    else
      let t1 := jOwnerComment t
      (if !t1.comment.isEmpty then jAppendAll cfg0 (jCommentBlockLines t1.comment)
       else .ok cfg0) >>= fun cfg1 =>
      if !t1.verbatim.isEmpty then
        .ok (some ((t1.verbatim.filter (fun v => v.1 == "juniper")).foldl
          (fun c v => { c with lines := c.lines ++ [v.2] }) cfg1), [], { jt with term := t1 })
      else
        jOptionsLoop t1 jt.termType >>= fun p =>
        let fromStr := p.1
        let jt1 : JTerm := { jt with term := t1, extraActions := jt.extraActions ++ p.2 }
        jconfigAppend cfg1 ("term " ++ t1.name ++ " \x7b") false >>= fun cfg3 =>
        (if hasMatchCriteria t1 then jFromBlock t1 jt.termType fromStr cfg3
         else .ok (some cfg3, [])) >>= fun fromRes =>
        match fromRes with
        | (none, ws) => .ok (none, ws, jt1)
        | (some cfg4, _) =>
          jconfigAppend cfg4 "then \x7b" false >>= fun cfg5 =>
          jAppendAll cfg5 (thenContentLines t1 jt1.extraActions) >>= fun cfg6 =>
          jconfigAppend cfg6 "\x7d" false >>= fun cfg7 =>
          jconfigAppend cfg7 "\x7d" false >>= fun cfg8 =>
          .ok (some cfg8, [], jt1)


/-- `str(term)` for a Juniper term: the config rendered to text. -/
def renderJTerm (jt : JTerm) : Except JErr (String × List String × JTerm) :=
  renderJTermConfig jt >>= fun r =>
  match r.1 with
  | none => .ok ("", r.2.1, r.2.2)
  | some cfg => jconfigStr cfg >>= fun s => .ok (s, r.2.1, r.2.2)

/-! ### `Juniper._TranslatePolicy` and `Juniper.__str__` -/

/-- One translated Juniper filter. -/
structure JPolicyFilter where
  header : Header
  filterName : String
  filterType : String
  interfaceSpecific : Bool
  terms : List JTerm
deriving DecidableEq, Repr

/-- The term loop of `Juniper._TranslatePolicy`: the name is re-fitted
first (a mutation of the policy term), then the duplicate check runs;
skipped terms (stateless-reply, expired) still record their name. -/
def jAddTerms (ftype : String) (today : Nat) :
    List PTerm → List String → Except JErr (List JTerm)
  | [], _ => .ok []
  | t0 :: rest, seen =>
    let t := { t0 with name := fixTermLength t0.name }
    if seen.contains t.name then
      .error (.duplicateTerm ("You have multiple terms named: " ++ t.name))
    else
      match fixHighPorts t ftype true with
      | none => jAddTerms ftype today rest (t.name :: seen)
      | some t2 =>
        if (match t2.expiration with | some d => decide (d ≤ today) | none => false) then
          jAddTerms ftype today rest (t.name :: seen)
        else do
          let jt ← jtermInit t2 ftype
          let rest' ← jAddTerms ftype today rest (t.name :: seen)
          .ok (jt :: rest')

/-- The filter-type selection of `Juniper._TranslatePolicy`: default
`inet`, overridden by the word after the filter name. -/
def jFilterType (fopts : List String) : String :=
  match fopts with
  | _ :: ft :: _ => ft
  | _ => "inet"

/-- The effective filter options of `Juniper._TranslatePolicy`: the
`not-interface-specific` marker, when present after the filter name, is
removed before the filter type is read. -/
def jEffOptions (hdr : Header) : List String :=
  let fopts0 := hdr.filterOptions "juniper"
  let interfaceSpecific := !(fopts0.drop 1).contains "not-interface-specific"
  if !interfaceSpecific then fopts0.erase "not-interface-specific" else fopts0

/-- Whether the header asks for interface-specific filters. -/
def jInterfaceSpecific (hdr : Header) : Bool :=
  !((hdr.filterOptions "juniper").drop 1).contains "not-interface-specific"

/-- One header of `Juniper._TranslatePolicy`. -/
def jTranslateFilter (today : Nat) (hdr : Header) (terms : List PTerm) :
    Except JErr (Option JPolicyFilter) :=
  if !(hdr.platforms.contains "juniper") then .ok none
  else do
    let ftype := jFilterType (jEffOptions hdr)
    let fname := hdr.filterName "juniper"
    let jts ← jAddTerms ftype today terms []
    .ok (some { header := hdr, filterName := fname, filterType := ftype,
                interfaceSpecific := jInterfaceSpecific hdr, terms := jts })

/-- `Juniper._TranslatePolicy(pol, exp_info)` (dates as day numbers; the
near-expiry informational notes are not modelled). -/
def jTranslate (pol : Policy) (today : Nat) : Except JErr (List JPolicyFilter) :=
  pol.filters.foldlM (fun acc filt => do
    match ← jTranslateFilter today filt.1 filt.2 with
    | some f => pure (acc ++ [f])
    | none => pure acc) []

/-- The term loop of `Juniper.__str__`: render each term, append nonempty
results verbatim, and carry the term states (the renders mutate them). -/
def jRenderTerms (cfg : JConfig) : List JTerm → Except JErr (JConfig × List String × List JTerm)
  | [] => .ok (cfg, [], [])
  | jt :: rest =>
    renderJTerm jt >>= fun q =>
    (if q.1 ≠ "" then jconfigAppend cfg q.1 true else .ok cfg) >>= fun cfg1 =>
    jRenderTerms cfg1 rest >>= fun r =>
    .ok (r.1, q.2.1 ++ r.2.1, q.2.2 :: r.2.2)

/-- One filter of `Juniper.__str__`: the surrounding firewall/family/
filter blocks, the header comment, the terms, and the closers. -/
def jRenderFilter (cfg : JConfig) (pf : JPolicyFilter) :
    Except JErr (JConfig × List String × JPolicyFilter) :=
  jAppendAll cfg
    (["firewall \x7b", "family " ++ pf.filterType ++ " \x7b", "replace:", "/*"] ++
      addRepositoryTags "** " ++ ["**"] ++
      pf.header.comment.flatMap (fun c => (pSplitChar c '\n').map (fun l => "** " ++ l)) ++
      ["*/", "filter " ++ pf.filterName ++ " \x7b"] ++
      (if pf.interfaceSpecific then ["interface-specific;"] else [])) >>= fun c1 =>
  jRenderTerms c1 pf.terms >>= fun r =>
  jAppendAll r.1 ["\x7d", "\x7d", "\x7d"] >>= fun c3 =>
  .ok (c3, r.2.1, { pf with terms := r.2.2 })

/-- `Juniper.__str__`: the full render, a pure function of the translated
filters except for the per-term mutations, which are threaded back as the
updated filter list. -/
def juniperRender (filters : List JPolicyFilter) :
    Except JErr (String × List String × List JPolicyFilter) :=
  let cfg0 : JConfig := { indent := 0, initialIndent := 0, tabstop := 4, lines := [] }
  List.foldlM (fun st pf =>
      (jRenderFilter st.1 pf).bind (fun q =>
        .ok (q.1, st.2.1 ++ q.2.1, st.2.2 ++ [q.2.2])))
    ((cfg0, [], []) : JConfig × List String × List JPolicyFilter) filters >>= fun r =>
  jconfigStr r.1 >>= fun s =>
  .ok (s ++ "\n", r.2.1, r.2.2)

/-! ## Concrete instances used by the claim checks -/

/-- Dotted-quad to integer. -/
def mkV4 (a b c d : Nat) : Nat :=
  ((a * 256 + b) * 256 + c) * 256 + d

/-- A v4 prefix without annotation. -/
def mkPfx (n len : Nat) : Cidr :=
  ⟨4, n, len, ""⟩

/-- A term whose two exclusion-strategy cost estimates tie: one include
`10.0.0.0/8`, one exclude `10.0.0.0/10` (the expansion has two prefixes,
so `exclude_count = 2 = 1 + 1 * 1 = bailout_count`). -/
def c1TieTerm : PTerm :=
  { emptyTerm with
    name := "tie", action := [PAction.accept],
    source_address := [mkPfx (mkV4 10 0 0 0) 8],
    source_address_exclude := [mkPfx (mkV4 10 0 0 0) 10] }

/-- A term where full expansion is strictly cheaper: one include
`10.0.0.0/8`, one exclude `10.0.0.0/9` (expansion is one prefix). -/
def c1FullTerm : PTerm :=
  { emptyTerm with
    name := "cheap", action := [PAction.accept],
    source_address := [mkPfx (mkV4 10 0 0 0) 8],
    source_address_exclude := [mkPfx (mkV4 10 0 0 0) 9] }

/-- Scenario E: twenty excluded `/32` source addresses (no source
includes, so the wildcard is expanded) and a destination include list of
size one. -/
def scenETerm : PTerm :=
  { emptyTerm with
    name := "scenE", action := [PAction.accept],
    destination_address := [mkPfx (mkV4 10 0 0 0) 8],
    source_address_exclude := (List.range 20).map (fun k => mkPfx k 32) }

/-- `10.0.0.0/8`. -/
def c4Wide : Cidr := mkPfx (mkV4 10 0 0 0) 8

/-- `10.0.0.0/9`. -/
def c4Narrow : Cidr := mkPfx (mkV4 10 0 0 0) 9

/-- A term using the icmp protocol. -/
def c7IcmpTerm : PTerm :=
  { emptyTerm with name := "t", protocol := ["icmp"], action := [PAction.accept] }

/-- The icmp term wrapped for an inet6 Juniper filter. -/
def c7JTerm : JTerm := ⟨c7IcmpTerm, "inet6", []⟩

/-- The icmp term wrapped for an inet6 iptables filter. -/
def c7ITerm : ITerm :=
  { term := c7IcmpTerm, filterName := "INPUT", trackstate := true,
    defaultAction := none, af := "inet6", termName := "I_t" }

/-- A term with an owner, triggering the comment mutation in the Juniper
renderer. -/
def ownerTerm : PTerm :=
  { emptyTerm with name := "t1", owner := "me", action := [PAction.accept] }

/-- The owner term wrapped for an inet Juniper filter. -/
def ownerJTerm : JTerm := ⟨ownerTerm, "inet", []⟩

/-- The owner term as the first render leaves it: the owner comment has
been appended to the policy term's comment list. -/
def ownerJTermAfter : JTerm :=
  ⟨{ ownerTerm with comment := ["Owner: me"] }, "inet", []⟩

/-- A one-filter Juniper header. -/
def jHeader : Header := ⟨[⟨"juniper", ["FILTERNAME", "inet"]⟩], ["hdr comment"]⟩

/-- A translated one-term Juniper filter whose term has an owner. -/
def ownerPolicyFilter : JPolicyFilter :=
  ⟨jHeader, "FILTERNAME", "inet", true, [ownerJTerm]⟩

/-- The same filter with an owner-free term. -/
def plainJTerm : JTerm :=
  ⟨{ emptyTerm with name := "t1", action := [PAction.accept] }, "inet", []⟩

/-- A translated one-term Juniper filter without owners. -/
def plainPolicyFilter : JPolicyFilter :=
  ⟨jHeader, "FILTERNAME", "inet", true, [plainJTerm]⟩

/-- Scenario C: a filter with two terms named `allow-web`. -/
def allowWebTerm : PTerm :=
  { emptyTerm with name := "allow-web", action := [PAction.accept] }

/-- Scenario C header for iptables. -/
def scenCHeaderIpt : Header := ⟨[⟨"iptables", ["INPUT"]⟩], []⟩

/-- Scenario C header for Juniper. -/
def scenCHeaderJun : Header := ⟨[⟨"juniper", ["FILTERNAME", "inet"]⟩], []⟩

/-- A term setting `ether_type` but also carrying iptables verbatim
text. -/
def c10VerbatimTerm : PTerm :=
  { emptyTerm with
    name := "v", ether_type := ["arp"],
    verbatim := [("iptables", "foo")], action := [PAction.accept] }

/-- The verbatim ether-type term wrapped for the iptables renderer. -/
def c10ITerm : ITerm :=
  { term := c10VerbatimTerm, filterName := "INPUT", trackstate := true,
    defaultAction := none, af := "inet", termName := "I_v" }

/-- A term setting `ether_type` with no verbatim text. -/
def c10PlainTerm : PTerm :=
  { emptyTerm with name := "e", ether_type := ["arp"], action := [PAction.accept] }

/-- The plain ether-type term wrapped for the iptables renderer. -/
def c10PlainITerm : ITerm :=
  { term := c10PlainTerm, filterName := "INPUT", trackstate := true,
    defaultAction := none, af := "inet", termName := "I_e" }

/-- A default term for the Juniper renderer: no match criteria, only
then-block content. -/
def c9DefaultTerm : PTerm :=
  { emptyTerm with
    name := "default-deny", action := [PAction.deny],
    logging := ["local"], counter := "denied", comment := ["deny the rest"] }

/-- The default term wrapped for an inet Juniper filter. -/
def c9JTerm : JTerm := ⟨c9DefaultTerm, "inet", []⟩

/-- The term state after a Juniper term render, when it succeeds. -/
def jRenderEndState (jt : JTerm) : Option JTerm :=
  match renderJTermConfig jt with
  | .ok (_, _, jt') => some jt'
  | .error _ => none

/-- A term with an empty action list for the iptables renderer. -/
def c3EmptyActionITerm : ITerm :=
  { term := { emptyTerm with name := "x" }, filterName := "INPUT", trackstate := true,
    defaultAction := some "DROP", af := "inet", termName := "I_x" }

/-- The first render of the owner policy. -/
def c2FirstRender : Except JErr String :=
  (juniperRender [ownerPolicyFilter]).map (fun r => r.1)

/-- A second render, called on the renderer state the first one left
behind. -/
def c2SecondRender : Except JErr String :=
  (juniperRender [ownerPolicyFilter]).bind (fun r =>
    (juniperRender r.2.2).map (fun r2 => r2.1))

/-- The leading content of an emitted line: the text after the indent run. -/
def lineLeads (l : String) : String :=
  ⟨l.data.dropWhile (· == ' ')⟩

/-- The config the default term renders to. -/
def c9Cfg : JConfig :=
  { indent := 12, initialIndent := 12, tabstop := 4,
    lines := ["            /*", "            ** deny the rest", "            */",
              "            term default-deny \x7b", "                then \x7b",
              "                    log;", "                    count denied;",
              "                    discard;", "                \x7d", "            \x7d"] }

/-! ## Helper lemmas -/

deriving instance DecidableEq for Except

lemma exceptBind_ok {ε α β : Type} (a : α) (f : α → Except ε β) :
    (Except.ok a : Except ε α).bind f = f a := rfl

@[simp] lemma except_ok_bind {ε α β : Type} (a : α) (f : α → Except ε β) :
    ((Except.ok a : Except ε α) >>= f) = f a := rfl

@[simp] lemma except_error_bind {ε α β : Type} (e : ε) (f : α → Except ε β) :
    ((Except.error e : Except ε α) >>= f) = Except.error e := rfl

@[simp] lemma except_pure_eq {ε α : Type} (a : α) :
    (pure a : Except ε α) = Except.ok a := rfl

@[simp] lemma except_throw_eq {ε α : Type} (e : ε) :
    (throw e : Except ε α) = Except.error e := rfl

lemma exceptBind_err {ε α β : Type} (e : ε) (f : α → Except ε β) :
    (Except.error e : Except ε α).bind f = Except.error e := rfl

lemma abbrevApply_of_le (tbl : List (String × String)) (s : String) (m : Nat)
    (h : s.length ≤ m) : abbrevApply tbl s m = s := by
  cases tbl with
  | nil => rfl
  | cons wa rest => cases wa with
    | mk w a => simp [abbrevApply, h]

lemma checkTermLength_ok_le {name r : String} {m : Nat} {b : Bool}
    (h : checkTermLength name m b = .ok r) : r.length ≤ m := by
  simp only [checkTermLength] at h
  by_cases hc : (if b then abbrevApply abbreviationTable name m else name).length ≤ m
  · rw [if_pos hc] at h
    cases h
    exact hc
  · rw [if_neg hc] at h
    simp at h

lemma consolidatePorts_flatten :
    ∀ (ps cur : List (Nat × Nat)) (c : Nat),
      (consolidatePorts ps cur c).flatten = cur ++ ps := by
  intro ps
  induction ps with
  | nil =>
    intro cur c
    simp [consolidatePorts]
  | cons p rest ih =>
    intro cur c
    by_cases h14 : 14 ≤ c + (if p.1 = p.2 then 1 else 2)
    · simp only [consolidatePorts, if_pos h14, List.flatten_cons]
      rw [ih]
      simp
    · simp only [consolidatePorts, if_neg h14]
      rw [ih]
      simp

/-! ## Claim C8 -/

/-- C8: identifier fitting is idempotent: applying `_CheckTermLength`
twice (24-character limit, abbreviation allowed) equals applying it once,
and a name already within the limit is returned unchanged. -/
theorem fit_identifier_idempotent :
    ∀ name : String,
      ((checkTermLength name 24 true).bind (fun r => checkTermLength r 24 true) =
        checkTermLength name 24 true) ∧
      (name.length ≤ 24 → checkTermLength name 24 true = .ok name) := by
  intro name
  constructor
  · cases h : checkTermLength name 24 true with
    | error e => rfl
    | ok r =>
      rw [exceptBind_ok]
      have hr := checkTermLength_ok_le h
      simp [checkTermLength, abbrevApply_of_le _ _ _ hr, hr]
  · intro h
    simp [checkTermLength, abbrevApply_of_le _ _ _ h, h]

/-- C8 witness: a short name is a fixed point of the fitting. -/
theorem fit_identifier_idempotent_witness :
    checkTermLength "allow-web" 24 true = .ok "allow-web" :=
  (fit_identifier_idempotent "allow-web").2 (by decide)

/-! ## Claim C5 -/

/-- C5: the multiport consolidation of `_GeneratePortStatement` matches
exactly the set of ports of the input list: a port is covered by some
range in some emitted group iff it is covered by the input ranges. -/
theorem consolidate_ports_round_trip :
    ∀ (ports : List (Nat × Nat)) (p : Nat),
      (∃ g ∈ consolidatePorts ports [] 0, ∃ r ∈ g, r.1 ≤ p ∧ p ≤ r.2) ↔
        ∃ r ∈ ports, r.1 ≤ p ∧ p ≤ r.2 := by
  intro ports p
  constructor
  · rintro ⟨g, hg, r, hr, h⟩
    refine ⟨r, ?_, h⟩
    have hm : r ∈ (consolidatePorts ports [] 0).flatten :=
      List.mem_flatten.mpr ⟨g, hg, hr⟩
    rwa [consolidatePorts_flatten, List.nil_append] at hm
  · rintro ⟨r, hr, h⟩
    have hm : r ∈ (consolidatePorts ports [] 0).flatten := by
      rw [consolidatePorts_flatten, List.nil_append]
      exact hr
    rcases List.mem_flatten.mp hm with ⟨g, hg, hrg⟩
    exact ⟨g, hg, r, hrg, h⟩

/-! ## Claim C4 -/

/-- C4 counterexample: the exclude prefix `10.0.0.0/9` has an exact match
in the include list `[10.0.0.0/8, 10.0.0.0/9]`, but `_MinimizePrefixes`
keeps it in the exclude result (it drops the *include* occurrence
instead). -/
theorem minimize_prefixes_counterexample :
    minimizePrefixes [c4Wide, c4Narrow] [c4Narrow] = ([c4Wide], [c4Narrow]) ∧
      c4Narrow ∈ [c4Wide, c4Narrow] ∧ cidrEq c4Narrow c4Narrow = true := by
  decide

/-- C4 amended: `_MinimizePrefixes` drops every *include* prefix with an
exact match in the exclude list, keeps exactly the exclude prefixes
contained in some surviving include prefix, and preserves the order of
both lists. -/
theorem minimize_prefixes_amended :
    ∀ (includes excludes : List Cidr),
      (∀ i, i ∈ (minimizePrefixes includes excludes).1 ↔
        i ∈ includes ∧ ∀ e ∈ excludes, cidrEq e i = false) ∧
      (∀ e, e ∈ (minimizePrefixes includes excludes).2 ↔
        e ∈ excludes ∧ ∃ i ∈ (minimizePrefixes includes excludes).1, cidrIn e i = true) ∧
      (minimizePrefixes includes excludes).1.Sublist includes ∧
      (minimizePrefixes includes excludes).2.Sublist excludes := by
  intro includes excludes
  refine ⟨?_, ?_, ?_, ?_⟩
  · intro i
    simp [minimizePrefixes, List.mem_filter, List.any_eq_true]
  · intro e
    simp [minimizePrefixes, List.mem_filter, List.any_eq_true]
    intro _
    constructor
    · rintro ⟨i, hi, hP, hQ⟩
      exact ⟨i, ⟨hi, hP⟩, hQ⟩
    · rintro ⟨i, ⟨hi, hP⟩, hQ⟩
      exact ⟨i, hi, hP, hQ⟩
  · exact List.filter_sublist includes
  · exact List.filter_sublist excludes

/-! ## Claim C1 -/

/-- C1 counterexample: a term whose two cost estimates tie (both 2); the
renderer keeps the exclude list for bailout jumps rather than choosing
full expansion. -/
theorem exclusion_strategy_counterexample :
    excludeCount c1TieTerm "inet" = bailoutCount c1TieTerm ∧
      (chooseAddrs c1TieTerm "inet").exclSrc = [mkPfx (mkV4 10 0 0 0) 10] ∧
      (chooseAddrs c1TieTerm "inet").exclSrc ≠ [] := by
  decide

/-- C1 amended: full expansion is chosen exactly when its estimated cost
is strictly lower than the bailout cost (ties and higher costs keep the
bailout jumps), and Scenario E's term (twenty excluded `/32` source
addresses, destination include list of size one) is rendered with the
bailout strategy. -/
theorem exclusion_strategy_amended :
    (∀ (t : PTerm) (af : String),
        excludeCount t af < bailoutCount t →
          (chooseAddrs t af).exclSrc = [] ∧ (chooseAddrs t af).exclDst = [] ∧
          ((termSaddrExcluded t af).isEmpty = false →
            (chooseAddrs t af).srcAddrs = termSaddrExcluded t af) ∧
          ((termDaddrExcluded t af).isEmpty = false →
            (chooseAddrs t af).dstAddrs = termDaddrExcluded t af)) ∧
    (∀ (t : PTerm) (af : String),
        bailoutCount t ≤ excludeCount t af →
          (chooseAddrs t af).exclSrc = t.source_address_exclude ∧
          (chooseAddrs t af).exclDst = t.destination_address_exclude ∧
          (chooseAddrs t af).srcAddrs =
            (if t.source_address.isEmpty then [allIps af] else t.source_address) ∧
          (chooseAddrs t af).dstAddrs =
            (if t.destination_address.isEmpty then [allIps af] else t.destination_address)) ∧
    (bailoutCount scenETerm ≤ excludeCount scenETerm "inet" ∧
      (chooseAddrs scenETerm "inet").exclSrc = scenETerm.source_address_exclude ∧
      scenETerm.source_address_exclude.length = 20 ∧
      scenETerm.destination_address.length = 1) := by
  refine ⟨?_, ?_, ?_⟩
  · intro t af h
    refine ⟨?_, ?_, ?_, ?_⟩ <;> simp [chooseAddrs, h]
    · intro hx
      simp [hx]
    · intro hx
      simp [hx]
  · intro t af h
    have h' : ¬ excludeCount t af < bailoutCount t := Nat.not_lt.mpr h
    refine ⟨?_, ?_, ?_, ?_⟩ <;> simp [chooseAddrs, h']
  · refine ⟨by decide, by decide, by decide, by decide⟩

/-- C1 witness: on the cheap-expansion term strict inequality picks full
expansion, and on the tie term the bailout jumps are kept. -/
theorem exclusion_strategy_witness :
    (chooseAddrs c1FullTerm "inet").exclSrc = [] ∧
      (chooseAddrs c1TieTerm "inet").exclSrc = c1TieTerm.source_address_exclude :=
  ⟨(exclusion_strategy_amended.1 c1FullTerm "inet" (by decide)).1,
   (exclusion_strategy_amended.2.1 c1TieTerm "inet" (by decide)).1⟩

lemma contains_iff_mem {α : Type} [BEq α] [LawfulBEq α] (l : List α) (a : α) :
    l.contains a = true ↔ a ∈ l := by
  simp [List.contains, List.elem_iff]

lemma checkTermLength_of_le (name : String) (m : Nat) (b : Bool)
    (h : name.length ≤ m) : checkTermLength name m b = .ok name := by
  cases b <;> simp [checkTermLength, abbrevApply_of_le _ _ _ h, h]

lemma fixHighPorts_name {t : PTerm} {af : String} {st : Bool} {t2 : PTerm}
    (h : fixHighPorts t af st = some t2) : t2.name = t.name := by
  unfold fixHighPorts at h
  split at h
  · cases h
  · split at h
    · cases h
      rfl
    · cases h
      rfl

lemma iptablesAddTerms_dup (fname : String) (stateful : Bool) (da : Option String)
    (ftype : String) (truncate : Bool) (today : Nat) :
    ∀ (ts : List PTerm) (seen : List String),
      (∀ t ∈ ts, t.name.length ≤ 24) →
      ((∃ t ∈ ts, t.name ∈ seen) ∨ ¬ (ts.map PTerm.name).Nodup) →
      ∃ n, iptablesAddTerms fname stateful da ftype truncate today ts seen =
        .error (.duplicateTerm n) := by
  intro ts
  induction ts with
  | nil =>
    intro seen _ hd
    rcases hd with ⟨t, ht, _⟩ | hnd
    · exact absurd ht (List.not_mem_nil t)
    · exact absurd (by simp) hnd
  | cons t rest ih =>
    intro seen hlen hd
    by_cases hseen : t.name ∈ seen
    · exact ⟨t.name, by simp [iptablesAddTerms, hseen]⟩
    · have hd' : (∃ u ∈ rest, u.name ∈ t.name :: seen) ∨
          ¬ (rest.map PTerm.name).Nodup := by
        rcases hd with ⟨u, hu, hc⟩ | hnd
        · rcases List.mem_cons.mp hu with rfl | hu'
          · exact absurd hc hseen
          · exact Or.inl ⟨u, hu', List.mem_cons_of_mem _ hc⟩
        · rw [List.map_cons, List.nodup_cons] at hnd
          by_cases hmem : t.name ∈ rest.map PTerm.name
          · rcases List.mem_map.mp hmem with ⟨u, hu, huname⟩
            exact Or.inl ⟨u, hu, by rw [huname]; exact List.mem_cons_self _ _⟩
          · exact Or.inr (fun hnd' => hnd ⟨hmem, hnd'⟩)
      have hrest : ∀ u ∈ rest, u.name.length ≤ 24 := fun u hu => hlen u (by simp [hu])
      rcases ih (t.name :: seen) hrest hd' with ⟨n, hn⟩
      refine ⟨n, ?_⟩
      have hts : t.name.length ≤ 24 := hlen t (by simp)
      cases hfh : fixHighPorts t ftype stateful with
      | none => simp [iptablesAddTerms, hseen, hfh, hn]
      | some t2 =>
        have hname2 : t2.name = t.name := fixHighPorts_name hfh
        by_cases hexp : (match t2.expiration with
          | some d => decide (d ≤ today) | none => false) = true
        · simp [iptablesAddTerms, hseen, hfh, hexp, hn]
        · have hinit : checkTermLength t2.name 24 truncate = .ok t2.name :=
            checkTermLength_of_le _ _ _ (by rw [hname2]; exact hts)
          simp [iptablesAddTerms, hseen, hfh, hexp, itermInit, hinit, hn]

lemma fixTermLength_of_le {name : String} (h : name.length ≤ 63) :
    fixTermLength name = name := by
  simp [fixTermLength, h]

lemma jAddTerms_dup (ftype : String) (today : Nat)
    (hft : ftype = "inet" ∨ ftype = "inet6" ∨ ftype = "bridge") :
    ∀ (ts : List PTerm) (seen : List String),
      (∀ t ∈ ts, t.name.length ≤ 63) →
      ((∃ t ∈ ts, t.name ∈ seen) ∨ ¬ (ts.map PTerm.name).Nodup) →
      ∃ n, jAddTerms ftype today ts seen = .error (.duplicateTerm n) := by
  intro ts
  induction ts with
  | nil =>
    intro seen _ hd
    rcases hd with ⟨t, ht, _⟩ | hnd
    · exact absurd ht (List.not_mem_nil t)
    · exact absurd (by simp) hnd
  | cons t rest ih =>
    intro seen hlen hd
    have hts : t.name.length ≤ 63 := hlen t (by simp)
    have hfit : fixTermLength t.name = t.name := fixTermLength_of_le hts
    by_cases hseen : t.name ∈ seen
    · refine ⟨"You have multiple terms named: " ++ t.name, ?_⟩
      simp [jAddTerms, hfit, hseen]
    · have hd' : (∃ u ∈ rest, u.name ∈ t.name :: seen) ∨
          ¬ (rest.map PTerm.name).Nodup := by
        rcases hd with ⟨u, hu, hc⟩ | hnd
        · rcases List.mem_cons.mp hu with rfl | hu'
          · exact absurd hc hseen
          · exact Or.inl ⟨u, hu', List.mem_cons_of_mem _ hc⟩
        · rw [List.map_cons, List.nodup_cons] at hnd
          by_cases hmem : t.name ∈ rest.map PTerm.name
          · rcases List.mem_map.mp hmem with ⟨u, hu, huname⟩
            exact Or.inl ⟨u, hu, by rw [huname]; exact List.mem_cons_self _ _⟩
          · exact Or.inr (fun hnd' => hnd ⟨hmem, hnd'⟩)
      have hrest : ∀ u ∈ rest, u.name.length ≤ 63 := fun u hu => hlen u (by simp [hu])
      rcases ih (t.name :: seen) hrest hd' with ⟨n, hn⟩
      refine ⟨n, ?_⟩
      have hinit : ∀ u : PTerm, jtermInit u ftype = .ok ⟨u, ftype, []⟩ := by
        intro u
        rcases hft with h | h | h <;> simp [jtermInit, h]
      have htt : ({ t with name := t.name } : PTerm) = t := rfl
      cases hfh : fixHighPorts t ftype true with
      | none => simp [jAddTerms, hfit, htt, hseen, hfh, hn]
      | some t2 =>
        by_cases hexp : (match t2.expiration with
          | some d => decide (d ≤ today) | none => false) = true
        · simp [jAddTerms, hfit, htt, hseen, hfh, hexp, hn]
        · simp [jAddTerms, hfit, htt, hseen, hfh, hexp, hinit, hn]

lemma daGood_headerDefaultAction (h : Header) (cur : Option String)
    (hc : ∀ d, cur = some d → goodDefaultActions.contains d = true) :
    ∀ d, headerDefaultAction h cur = some d → goodDefaultActions.contains d = true := by
  unfold headerDefaultAction
  have inner : ∀ (opts : List String) (acc : Option String),
      (∀ d, acc = some d → goodDefaultActions.contains d = true) →
      ∀ d, opts.foldl (fun a arg =>
        if goodDefaultActions.contains arg then some arg else a) acc = some d →
        goodDefaultActions.contains d = true := by
    intro opts
    induction opts with
    | nil => intro acc hacc; exact hacc
    | cons o rest ih =>
      intro acc hacc
      simp only [List.foldl]
      apply ih
      by_cases ho : goodDefaultActions.contains o = true
      · intro d hd
        rw [if_pos ho] at hd
        cases hd
        exact ho
      · intro d hd
        rw [if_neg ho] at hd
        exact hacc d hd
  have outer : ∀ (tgs : List Target) (acc : Option String),
      (∀ d, acc = some d → goodDefaultActions.contains d = true) →
      ∀ d, tgs.foldl (fun acc tgt =>
          if tgt.platform == "iptables" && tgt.options.length > 1 then
            tgt.options.foldl (fun a arg =>
              if goodDefaultActions.contains arg then some arg else a) acc
          else acc) acc = some d →
        goodDefaultActions.contains d = true := by
    intro tgs
    induction tgs with
    | nil => intro acc hacc; exact hacc
    | cons tg rest ih =>
      intro acc hacc
      simp only [List.foldl]
      apply ih
      by_cases hp : (tg.platform == "iptables" && decide (tg.options.length > 1)) = true
      · rw [if_pos hp]
        exact inner tg.options acc hacc
      · rw [if_neg hp]
        exact hacc
  exact outer h.targets cur hc

lemma checkDefaultAction_of_good {x : Option String}
    (hx : ∀ d, x = some d → goodDefaultActions.contains d = true) :
    checkDefaultAction x = .ok () := by
  cases x with
  | none => rfl
  | some d => simp [checkDefaultAction, (contains_iff_mem _ _).mp (hx d rfl)]

lemma checkFilterOptions_of_good : ∀ (opts : List String),
    (∀ o ∈ opts, (goodDefaultActions ++ goodAfs ++ goodOptions).contains o = true) →
    checkFilterOptions opts = .ok () := by
  intro opts
  induction opts with
  | nil => intro _; rfl
  | cons o rest ih =>
    intro h
    have ho := h o (by simp)
    simp only [checkFilterOptions, ho, if_pos]
    exact ih (fun u hu => h u (by simp [hu]))

/-! ## Claim C6 -/

/-- C6: two terms with the same name inside one filter make `Translate`
fail with the duplicate-term error, for both renderers, before any filter
model (and hence any output) is produced — given otherwise well-formed
input (term names within the platform length limits, recognised filter
options). -/
theorem duplicate_name_translate_error :
    (∀ (hdr : Header) (ts : List PTerm) (today : Nat),
        hdr.platforms.contains "iptables" = true →
        (∀ o ∈ (hdr.filterOptions "iptables").drop 1,
          (goodDefaultActions ++ goodAfs ++ goodOptions).contains o = true) →
        (∃ ft, determineAf ((hdr.filterOptions "iptables").drop 1) = .ok ft) →
        (∀ t ∈ ts, t.name.length ≤ 24) →
        ¬ (ts.map PTerm.name).Nodup →
        ∃ n, iptablesTranslate ⟨[(hdr, ts)]⟩ today = .error (.duplicateTerm n)) ∧
    (∀ (hdr : Header) (ts : List PTerm) (today : Nat),
        hdr.platforms.contains "juniper" = true →
        (jFilterType (jEffOptions hdr) = "inet" ∨ jFilterType (jEffOptions hdr) = "inet6" ∨
          jFilterType (jEffOptions hdr) = "bridge") →
        (∀ t ∈ ts, t.name.length ≤ 63) →
        ¬ (ts.map PTerm.name).Nodup →
        ∃ n, jTranslate ⟨[(hdr, ts)]⟩ today = .error (.duplicateTerm n)) := by
  constructor
  · intro hdr ts today hplat hopts hdaf hlen hnd
    obtain ⟨ft, hft⟩ := hdaf
    have hcheck := checkFilterOptions_of_good _ hopts
    have hda : ∀ d, headerDefaultAction hdr
        (if (hdr.filterName "iptables" == "FORWARD") = true then some "DROP" else none) =
          some d → goodDefaultActions.contains d = true := by
      apply daGood_headerDefaultAction
      intro d hd
      split at hd
      · cases hd
        decide
      · cases hd
    have hcda := checkDefaultAction_of_good hda
    obtain ⟨n, hn⟩ := iptablesAddTerms_dup (hdr.filterName "iptables")
      (if ((hdr.filterOptions "iptables").drop 1).contains "nostate" = true then false else true)
      (headerDefaultAction hdr
        (if (hdr.filterName "iptables" == "FORWARD") = true then some "DROP" else none))
      ft (((hdr.filterOptions "iptables").drop 1).contains "truncatenames") today ts []
      hlen (Or.inr hnd)
    refine ⟨n, ?_⟩
    have hplat' : "iptables" ∈ hdr.platforms := (contains_iff_mem _ _).mp hplat
    simp at hcheck hft hcda hn
    simp [iptablesTranslate, iptablesTranslateFilter, hplat', hcheck, hft, hcda, hn]
  · intro hdr ts today hplat hft hlen hnd
    obtain ⟨n, hn⟩ := jAddTerms_dup (jFilterType (jEffOptions hdr)) today hft ts []
      hlen (Or.inr hnd)
    refine ⟨n, ?_⟩
    have hplat' : "juniper" ∈ hdr.platforms := (contains_iff_mem _ _).mp hplat
    simp [jTranslate, jTranslateFilter, hplat', hn]

/-- C6 witness: Scenario C, two terms named `allow-web` in one filter,
for both renderers. -/
theorem duplicate_name_translate_error_witness :
    (∃ n, iptablesTranslate ⟨[(scenCHeaderIpt, [allowWebTerm, allowWebTerm])]⟩ 0 =
      .error (.duplicateTerm n)) ∧
    (∃ n, jTranslate ⟨[(scenCHeaderJun, [allowWebTerm, allowWebTerm])]⟩ 0 =
      .error (.duplicateTerm n)) :=
  ⟨duplicate_name_translate_error.1 scenCHeaderIpt [allowWebTerm, allowWebTerm] 0
      (by decide) (by decide) ⟨"inet", rfl⟩ (by decide) (by decide),
   duplicate_name_translate_error.2 scenCHeaderJun [allowWebTerm, allowWebTerm] 0
      (by decide) (by decide) (by decide) (by decide)⟩

lemma iptablesAddTerms_ok (fname : String) (stateful : Bool) (da : Option String)
    (ftype : String) (truncate : Bool) (today : Nat) :
    ∀ (ts : List PTerm) (seen : List String),
      (∀ t ∈ ts, t.name.length ≤ 24) →
      (∀ t ∈ ts, t.name ∉ seen) →
      (ts.map PTerm.name).Nodup →
      ∃ l, iptablesAddTerms fname stateful da ftype truncate today ts seen = .ok l := by
  intro ts
  induction ts with
  | nil => intro seen _ _ _; exact ⟨[], rfl⟩
  | cons t rest ih =>
    intro seen hlen hseen hnd
    have hs : t.name ∉ seen := hseen t (by simp)
    rw [List.map_cons, List.nodup_cons] at hnd
    have hrest1 : ∀ u ∈ rest, u.name.length ≤ 24 := fun u hu => hlen u (by simp [hu])
    have hrest2 : ∀ u ∈ rest, u.name ∉ t.name :: seen := by
      intro u hu
      intro hmem
      rcases List.mem_cons.mp hmem with heq | hmem'
      · exact hnd.1 (List.mem_map.mpr ⟨u, hu, heq⟩)
      · exact hseen u (by simp [hu]) hmem'
    obtain ⟨l, hl⟩ := ih (t.name :: seen) hrest1 hrest2 hnd.2
    cases hfh : fixHighPorts t ftype stateful with
    | none => exact ⟨l, by simp [iptablesAddTerms, hs, hfh, hl]⟩
    | some t2 =>
      have hname2 : t2.name = t.name := fixHighPorts_name hfh
      by_cases hexp : (match t2.expiration with
        | some d => decide (d ≤ today) | none => false) = true
      · exact ⟨l, by simp [iptablesAddTerms, hs, hfh, hexp, hl]⟩
      · have hinit : checkTermLength t2.name 24 truncate = .ok t2.name :=
          checkTermLength_of_le _ _ _ (by rw [hname2]; exact hlen t (by simp))
        refine ⟨{ term := t2, filterName := fname, trackstate := stateful,
                  defaultAction := da, af := ftype,
                  termName := pyTake fname 1 ++ "_" ++ t2.name } :: l, ?_⟩
        simp [iptablesAddTerms, hs, hfh, hexp, itermInit, hinit, hl]

/-! ## Claim C10 -/

/-- C10 counterexample: a term that sets `ether_type` but carries iptables
verbatim text renders successfully (the verbatim early return precedes the
unsupported-field checks), so not *every* term with these fields raises. -/
theorem unsupported_field_counterexample :
    renderITerm c10ITerm [] = .ok ("foo", []) ∧ c10VerbatimTerm.ether_type ≠ [] := by
  decide

/-- C10 amended: a term that sets `ether_type`, `address` or `port` and
reaches normal rendering (not platform-skipped, no protocol/family
mismatch, no verbatim text) raises `UnsupportedFilterError` from
`Term.__str__`; `_TranslatePolicy` itself never examines these fields and
completes successfully on such terms. -/
theorem unsupported_field_render_error :
    (∀ (it : ITerm) (opts : List String),
        (!it.term.platform.isEmpty && !it.term.platform.contains "iptables") = false →
        (!it.term.platform_exclude.isEmpty &&
          it.term.platform_exclude.contains "iptables") = false →
        ((it.af == "inet6" && it.term.protocol.contains "icmp")
          || (it.af == "inet" && it.term.protocol.contains "icmpv6")) = false →
        it.term.verbatim = [] →
        (it.term.ether_type ≠ [] ∨ it.term.address ≠ [] ∨ it.term.port ≠ []) →
        ∃ m, renderITerm it opts = .error (.unsupportedFilterError m)) ∧
    (∀ (hdr : Header) (ts : List PTerm) (today : Nat),
        hdr.platforms.contains "iptables" = true →
        (∀ o ∈ (hdr.filterOptions "iptables").drop 1,
          (goodDefaultActions ++ goodAfs ++ goodOptions).contains o = true) →
        (∃ ft, determineAf ((hdr.filterOptions "iptables").drop 1) = .ok ft) →
        (∀ t ∈ ts, t.name.length ≤ 24) →
        (ts.map PTerm.name).Nodup →
        ∃ res, iptablesTranslate ⟨[(hdr, ts)]⟩ today = .ok res) := by
  constructor
  · intro it opts hp1 hp2 haf hv hfield
    simp at hp1 hp2 haf
    by_cases he : it.term.ether_type = []
    · by_cases ha : it.term.address = []
      · have hp : it.term.port ≠ [] := by
          rcases hfield with h | h | h
          · exact absurd he h
          · exact absurd ha h
          · exact h
        refine ⟨"\nport unsupported by iptables - specify source or dest \nError in term: " ++
          it.term.name, ?_⟩
        simp [renderITerm, hv, he, ha, hp]
        rw [if_neg (by rintro ⟨h1a, h1b⟩; exact h1b (hp1 h1a)),
            if_neg (by rintro ⟨h2a, h2b⟩; exact hp2 h2a h2b),
            if_neg (by rintro (⟨hx, hy⟩ | ⟨hx, hy⟩); exacts [haf.1 hx hy, haf.2 hx hy])]
      · refine ⟨"\naddress unsupported by iptables - specify source or dest \nError in term: " ++
          it.term.name, ?_⟩
        simp [renderITerm, hv, he, ha]
        rw [if_neg (by rintro ⟨h1a, h1b⟩; exact h1b (hp1 h1a)),
            if_neg (by rintro ⟨h2a, h2b⟩; exact hp2 h2a h2b),
            if_neg (by rintro (⟨hx, hy⟩ | ⟨hx, hy⟩); exacts [haf.1 hx hy, haf.2 hx hy])]
    · refine ⟨"\nether_type unsupported by iptables \nError in term " ++ it.term.name, ?_⟩
      simp [renderITerm, hv, he]
      rw [if_neg (by rintro ⟨h1a, h1b⟩; exact h1b (hp1 h1a)),
          if_neg (by rintro ⟨h2a, h2b⟩; exact hp2 h2a h2b),
          if_neg (by rintro (⟨hx, hy⟩ | ⟨hx, hy⟩); exacts [haf.1 hx hy, haf.2 hx hy])]
  · intro hdr ts today hplat hopts hdaf hlen hnd
    obtain ⟨ft, hft⟩ := hdaf
    have hcheck := checkFilterOptions_of_good _ hopts
    have hda : ∀ d, headerDefaultAction hdr
        (if (hdr.filterName "iptables" == "FORWARD") = true then some "DROP" else none) =
          some d → goodDefaultActions.contains d = true := by
      apply daGood_headerDefaultAction
      intro d hd
      split at hd
      · cases hd
        decide
      · cases hd
    have hcda := checkDefaultAction_of_good hda
    obtain ⟨l, hl⟩ := iptablesAddTerms_ok (hdr.filterName "iptables")
      (if ((hdr.filterOptions "iptables").drop 1).contains "nostate" = true then false else true)
      (headerDefaultAction hdr
        (if (hdr.filterName "iptables" == "FORWARD") = true then some "DROP" else none))
      ft (((hdr.filterOptions "iptables").drop 1).contains "truncatenames") today ts []
      hlen (by intro t _ h; exact absurd h (List.not_mem_nil _)) hnd
    refine ⟨[{ header := hdr, filterName := hdr.filterName "iptables", filterType := ft,
               defaultAction := headerDefaultAction hdr
                 (if (hdr.filterName "iptables" == "FORWARD") = true then some "DROP" else none),
               terms := l }], ?_⟩
    have hplat' : "iptables" ∈ hdr.platforms := (contains_iff_mem _ _).mp hplat
    simp at hcheck hft hcda hl
    simp [iptablesTranslate, iptablesTranslateFilter, hplat', hcheck, hft, hcda, hl]

/-- C10 witness: a term with `ether_type` and no verbatim raises at
render time, while translating a filter containing it succeeds. -/
theorem unsupported_field_render_error_witness :
    (∃ m, renderITerm c10PlainITerm [] = .error (.unsupportedFilterError m)) ∧
    (∃ res, iptablesTranslate ⟨[(scenCHeaderIpt, [c10PlainTerm])]⟩ 0 = .ok res) :=
  ⟨unsupported_field_render_error.1 c10PlainITerm [] (by decide) (by decide) (by decide)
      (by decide) (by decide),
   unsupported_field_render_error.2 scenCHeaderIpt [c10PlainTerm] 0 (by decide) (by decide)
      ⟨"inet", rfl⟩ (by decide) (by decide)⟩

lemma jconfigAppend_plain (cfg : JConfig) (s : String)
    (h1 : pEndsWith s "\x7d" = false) (h2 : pEndsWith s " \x7b" = false) :
    jconfigAppend cfg s false =
      .ok { cfg with lines := cfg.lines ++ [spacesN cfg.indent ++ pstrip s] } := by
  simp [jconfigAppend, h1, h2]

/-! ## Claim C7 -/

/-- C7 counterexample: the icmp term under an inet6 Juniper filter
renders to a three-line comment block (not zero lines) and logs no
warning (the warning list is empty); the term state is untouched. -/
theorem icmp_inet6_counterexample :
    renderJTerm c7JTerm =
      .ok ("            /* Term t\n            ** not rendered due to protocol/AF mismatch.\n            */",
        [], c7JTerm) ∧
    ("            /* Term t\n            ** not rendered due to protocol/AF mismatch.\n            */" : String)
      ≠ "" := by
  decide

/-- C7 amended: a term whose protocol set contains icmp, rendered under an
inet6 filter, produces exactly the protocol/AF-mismatch comment block (a
three-line comment for Juniper, a two-line comment for iptables), no
match or action lines, logs no warning, and leaves the renderer state
unchanged. -/
theorem icmp_inet6_mismatch_comment :
    (∀ jt : JTerm,
        (!jt.term.platform.isEmpty && !jt.term.platform.contains "juniper") = false →
        (!jt.term.platform_exclude.isEmpty &&
          jt.term.platform_exclude.contains "juniper") = false →
        jt.termType = "inet6" →
        jt.term.protocol.contains "icmp" = true →
        pEndsWith ("/* Term " ++ jt.term.name) "\x7d" = false →
        pEndsWith ("/* Term " ++ jt.term.name) " \x7b" = false →
        renderJTermConfig jt =
          .ok (some { indent := 12, initialIndent := 12, tabstop := 4,
                      lines := [spacesN 12 ++ pstrip ("/* Term " ++ jt.term.name),
                                spacesN 12 ++ pstrip "** not rendered due to protocol/AF mismatch.",
                                spacesN 12 ++ pstrip "*/"] }, [], jt)) ∧
    (∀ (it : ITerm) (opts : List String),
        (!it.term.platform.isEmpty && !it.term.platform.contains "iptables") = false →
        (!it.term.platform_exclude.isEmpty &&
          it.term.platform_exclude.contains "iptables") = false →
        it.af = "inet6" →
        it.term.protocol.contains "icmp" = true →
        renderITerm it opts =
          .ok ("# Term " ++ it.term.name ++ "\n# not rendered due to protocol/AF mismatch.",
            opts)) := by
  constructor
  · intro jt hp1 hp2 htt hicmp hn1 hn2
    simp at hp1 hp2 hicmp
    have g1 : ¬(¬jt.term.platform = [] ∧ "juniper" ∉ jt.term.platform) := by
      rintro ⟨h1a, h1b⟩
      exact h1b (hp1 h1a)
    have g2 : ¬(¬jt.term.platform_exclude = [] ∧ "juniper" ∈ jt.term.platform_exclude) := by
      rintro ⟨h2a, h2b⟩
      exact hp2 h2a h2b
    have d1 : pEndsWith "** not rendered due to protocol/AF mismatch." "\x7d" = false := by
      decide
    have d2 : pEndsWith "** not rendered due to protocol/AF mismatch." " \x7b" = false := by
      decide
    have d3 : pEndsWith "*/" "\x7d" = false := by decide
    have d4 : pEndsWith "*/" " \x7b" = false := by decide
    simp [renderJTermConfig, jAppendAll, jconfigAppend, g1, g2, htt, hicmp, hn1, hn2,
      d1, d2, d3, d4]
  · intro it opts hp1 hp2 haf hicmp
    simp at hp1 hp2 hicmp
    have g1 : ¬(¬it.term.platform = [] ∧ "iptables" ∉ it.term.platform) := by
      rintro ⟨h1a, h1b⟩
      exact h1b (hp1 h1a)
    have g2 : ¬(¬it.term.platform_exclude = [] ∧ "iptables" ∈ it.term.platform_exclude) := by
      rintro ⟨h2a, h2b⟩
      exact hp2 h2a h2b
    simp [renderITerm, g1, g2, haf, hicmp]

/-- C7 witness: the concrete icmp term under inet6 for both renderers. -/
theorem icmp_inet6_mismatch_comment_witness :
    renderJTermConfig c7JTerm =
      .ok (some { indent := 12, initialIndent := 12, tabstop := 4,
                  lines := [spacesN 12 ++ pstrip ("/* Term " ++ c7IcmpTerm.name),
                            spacesN 12 ++ pstrip "** not rendered due to protocol/AF mismatch.",
                            spacesN 12 ++ pstrip "*/"] }, [], c7JTerm) ∧
    renderITerm c7ITerm [] =
      .ok ("# Term " ++ c7IcmpTerm.name ++ "\n# not rendered due to protocol/AF mismatch.", []) :=
  ⟨icmp_inet6_mismatch_comment.1 c7JTerm (by decide) (by decide) (by decide) (by decide)
      (by decide) (by decide),
   icmp_inet6_mismatch_comment.2 c7ITerm [] (by decide) (by decide) (by decide) (by decide)⟩

lemma jOptionStep_extra {t : PTerm} {tt : String} {st r : List String × List String}
    {opt : String} (hs : pStartsWith opt "sample" = false)
    (h : jOptionStep t tt st opt = .ok r) : r.2 = st.2 := by
  obtain ⟨fs, ex⟩ := st
  simp only [jOptionStep] at h
  rw [if_neg (by simp [hs])] at h
  repeat' split at h
  all_goals (cases h <;> rfl)

lemma jOptionsLoop_no_sample {t : PTerm} {tt : String} :
    ∀ (opts : List String) (st r : List String × List String),
      (∀ o ∈ opts, pStartsWith o "sample" = false) →
      List.foldlM (jOptionStep t tt) st opts = .ok r → r.2 = st.2 := by
  intro opts
  induction opts with
  | nil =>
    intro st r _ h
    cases h
    rfl
  | cons o rest ih =>
    intro st r hns h
    simp only [List.foldlM] at h
    cases hstep : jOptionStep t tt st o with
    | error e =>
      rw [hstep] at h
      simp at h
    | ok st1 =>
      rw [hstep] at h
      simp only [except_ok_bind] at h
      have h1 := jOptionStep_extra (hns o (by simp)) hstep
      have h2 := ih st1 r (fun u hu => hns u (by simp [hu])) h
      rw [h2, h1]

lemma bindEq_ok {ε α β : Type} {x : Except ε α} {f : α → Except ε β} {b : β}
    (h : (x >>= f) = .ok b) : ∃ a, x = .ok a ∧ f a = .ok b := by
  cases x with
  | error e => simp at h
  | ok a => exact ⟨a, rfl, h⟩

lemma renderJTermConfig_frame {jt : JTerm} (hown : jt.term.owner = "")
    {c : Option JConfig} {w : List String} {jt' : JTerm}
    (h : renderJTermConfig jt = .ok (c, w, jt')) :
    ∃ ex, jt' = { jt with extraActions := jt.extraActions ++ ex } ∧
      ((∀ o ∈ jt.term.option, pStartsWith o "sample" = false) → ex = []) := by
  unfold renderJTermConfig at h
  dsimp only at h
  split at h
  · cases h
    exact ⟨[], by simp, fun _ => rfl⟩
  · split at h
    · cases h
      exact ⟨[], by simp, fun _ => rfl⟩
    · split at h
      · obtain ⟨cfg, hA, h⟩ := bindEq_ok h
        cases h
        exact ⟨[], by simp, fun _ => rfl⟩
      · have ht1 : jOwnerComment jt.term = jt.term := by
          simp [jOwnerComment, hown]
        rw [ht1] at h
        obtain ⟨cfg1, hC, h⟩ := bindEq_ok h
        split at h
        · cases h
          exact ⟨[], by simp, fun _ => rfl⟩
        · obtain ⟨⟨fromStr, extraAdds⟩, hO, h⟩ := bindEq_ok h
          obtain ⟨cfg3, hT, h⟩ := bindEq_ok h
          obtain ⟨fromRes, hF, h⟩ := bindEq_ok h
          obtain ⟨fc, ws⟩ := fromRes
          have hsample : (∀ o ∈ jt.term.option, pStartsWith o "sample" = false) →
              extraAdds = [] := by
            intro hns
            simp only [jOptionsLoop] at hO
            exact jOptionsLoop_no_sample jt.term.option ([], []) (fromStr, extraAdds) hns hO
          cases fc with
          | none =>
            cases h
            exact ⟨extraAdds, by simp, hsample⟩
          | some cfg4 =>
            obtain ⟨cfg5, h5, h⟩ := bindEq_ok h
            obtain ⟨cfg6, h6, h⟩ := bindEq_ok h
            obtain ⟨cfg7, h7, h⟩ := bindEq_ok h
            obtain ⟨cfg8, h8, h⟩ := bindEq_ok h
            cases h
            exact ⟨extraAdds, by simp, hsample⟩


/-! ## Claim C3 -/

/-- C3 counterexample: rendering a Juniper term with an owner rewrites the
policy term's comment list — the IR object is mutated by `Render`. -/
theorem renderer_mutates_ir_counterexample :
    jRenderEndState ownerJTerm = some ownerJTermAfter ∧
      ownerJTermAfter.term ≠ ownerJTerm.term ∧
      ownerJTermAfter.term.comment = ["Owner: me"] ∧ ownerJTerm.term.comment = [] := by
  decide

/-- C3 amended: the Juniper term render leaves the policy term unchanged
exactly when the term has no owner (otherwise it appends an `Owner:`
comment line); the iptables renderer's only write to the policy term (the
default-action assignment on an empty action list) fails with the
runtime's index error instead of mutating. -/
theorem renderer_ir_mutation :
    (∀ (jt : JTerm) (c : Option JConfig) (w : List String) (jt' : JTerm),
        jt.term.owner = "" → renderJTermConfig jt = .ok (c, w, jt') →
          jt'.term = jt.term) ∧
    (∀ (it : ITerm) (opts : List String),
        (!it.term.platform.isEmpty && !it.term.platform.contains "iptables") = false →
        (!it.term.platform_exclude.isEmpty &&
          it.term.platform_exclude.contains "iptables") = false →
        ((it.af == "inet6" && it.term.protocol.contains "icmp")
          || (it.af == "inet" && it.term.protocol.contains "icmpv6")) = false →
        it.term.verbatim = [] → it.term.ether_type = [] → it.term.address = [] →
        it.term.port = [] → it.term.action = [] →
        renderITerm it opts = .error IptErr.runtimeIndexError) := by
  constructor
  · intro jt c w jt' hown h
    obtain ⟨ex, heq, _⟩ := renderJTermConfig_frame hown h
    rw [heq]
  · intro it opts hp1 hp2 haf hv he ha hp hact
    simp at hp1 hp2
    have g1 : ¬(¬it.term.platform = [] ∧ "iptables" ∉ it.term.platform) := by
      rintro ⟨h1a, h1b⟩
      exact h1b (hp1 h1a)
    have g2 : ¬(¬it.term.platform_exclude = [] ∧ "iptables" ∈ it.term.platform_exclude) := by
      rintro ⟨h2a, h2b⟩
      exact hp2 h2a h2b
    have g3 : ¬(it.af = "inet6" ∧ "icmp" ∈ it.term.protocol ∨
        it.af = "inet" ∧ "icmpv6" ∈ it.term.protocol) := by
      simp at haf
      rintro (⟨hx, hy⟩ | ⟨hx, hy⟩)
      · exact haf.1 hx hy
      · exact haf.2 hx hy
    simp [renderITerm, g1, g2, g3, hv, he, ha, hp, hact]

/-- C3 witness: the icmp/inet6 term (owner-free) is returned unchanged by
the Juniper render, and the empty-action term crashes the iptables
render. -/
theorem renderer_ir_mutation_witness :
    c7JTerm.term = c7JTerm.term ∧
      renderITerm c3EmptyActionITerm [] = .error IptErr.runtimeIndexError :=
  ⟨renderer_ir_mutation.1 c7JTerm
      (some { indent := 12, initialIndent := 12, tabstop := 4,
              lines := [spacesN 12 ++ pstrip ("/* Term " ++ c7IcmpTerm.name),
                        spacesN 12 ++ pstrip "** not rendered due to protocol/AF mismatch.",
                        spacesN 12 ++ pstrip "*/"] }) [] c7JTerm rfl (by decide),
   renderer_ir_mutation.2 c3EmptyActionITerm [] (by decide) (by decide) (by decide)
      (by decide) (by decide) (by decide) (by decide) (by decide)⟩

lemma renderJTerm_frame {jt : JTerm} {s : String} {w : List String} {jt' : JTerm}
    (hown : jt.term.owner = "")
    (hns : ∀ o ∈ jt.term.option, pStartsWith o "sample" = false)
    (h : renderJTerm jt = .ok (s, w, jt')) : jt' = jt := by
  unfold renderJTerm at h
  obtain ⟨⟨c, ws, jt2⟩, hr, h⟩ := bindEq_ok h
  obtain ⟨ex, heq, hex⟩ := renderJTermConfig_frame hown hr
  have hjt2 : jt2 = jt := by
    rw [heq, hex hns]
    simp
  cases c with
  | none =>
    simp at h
    rw [← h.2.2, hjt2]
  | some cfg =>
    obtain ⟨s2, hstr, h⟩ := bindEq_ok h
    simp at h
    rw [← h.2.2, hjt2]

lemma jRenderTerms_frame :
    ∀ (ts : List JTerm) (cfg : JConfig) (c : JConfig) (w : List String)
      (ts' : List JTerm),
      jRenderTerms cfg ts = .ok (c, w, ts') →
      (∀ jt ∈ ts, jt.term.owner = "" ∧
        ∀ o ∈ jt.term.option, pStartsWith o "sample" = false) →
      ts' = ts := by
  intro ts
  induction ts with
  | nil =>
    intro cfg c w ts' h _
    cases h
    rfl
  | cons jt rest ih =>
    intro cfg c w ts' h hyp
    unfold jRenderTerms at h
    obtain ⟨⟨s, w1, jt1⟩, hr, h⟩ := bindEq_ok h
    obtain ⟨cfg1, hc1, h⟩ := bindEq_ok h
    obtain ⟨⟨cfg2, ws, rest'⟩, hrest, h⟩ := bindEq_ok h
    simp at h
    have h1 : jt1 = jt :=
      renderJTerm_frame (hyp jt (by simp)).1 (hyp jt (by simp)).2 hr
    have h2 : rest' = rest :=
      ih cfg1 cfg2 ws rest' hrest (fun u hu => hyp u (by simp [hu]))
    rw [← h.2.2, h1, h2]

lemma jRenderFilter_frame {cfg : JConfig} {pf : JPolicyFilter} {c : JConfig}
    {w : List String} {pf' : JPolicyFilter}
    (h : jRenderFilter cfg pf = .ok (c, w, pf'))
    (hyp : ∀ jt ∈ pf.terms, jt.term.owner = "" ∧
      ∀ o ∈ jt.term.option, pStartsWith o "sample" = false) :
    pf' = pf := by
  unfold jRenderFilter at h
  obtain ⟨c1, h1, h⟩ := bindEq_ok h
  obtain ⟨⟨c2, ws, terms'⟩, hterms, h⟩ := bindEq_ok h
  obtain ⟨c3, h3, h⟩ := bindEq_ok h
  simp at h
  have := jRenderTerms_frame pf.terms c1 c2 ws terms' hterms hyp
  rw [← h.2.2, this]

lemma juniperRender_fold_frame :
    ∀ (fs : List JPolicyFilter) (st : JConfig × List String × List JPolicyFilter)
      (r : JConfig × List String × List JPolicyFilter),
      List.foldlM (fun st pf => (jRenderFilter st.1 pf).bind (fun q =>
        .ok (q.1, st.2.1 ++ q.2.1, st.2.2 ++ [q.2.2]))) st fs = .ok r →
      (∀ pf ∈ fs, ∀ jt ∈ pf.terms, jt.term.owner = "" ∧
        ∀ o ∈ jt.term.option, pStartsWith o "sample" = false) →
      r.2.2 = st.2.2 ++ fs := by
  intro fs
  induction fs with
  | nil =>
    intro st r h _
    cases h
    simp
  | cons pf rest ih =>
    intro st r h hyp
    simp only [List.foldlM] at h
    cases hf : jRenderFilter st.1 pf with
    | error e =>
      rw [hf] at h
      simp [Except.bind] at h
    | ok q =>
      rw [hf] at h
      obtain ⟨c1, ws1, pf1⟩ := q
      simp only [Except.bind, except_ok_bind] at h
      have hpf : pf1 = pf := jRenderFilter_frame hf (hyp pf (by simp))
      have := ih (c1, st.2.1 ++ ws1, st.2.2 ++ [pf1]) r h
        (fun u hu => hyp u (by simp [hu]))
      rw [this, hpf]
      simp


/-! ## Claim C2 -/

set_option maxRecDepth 10000 in
/-- C2 counterexample: rendering the translated owner policy twice yields
two different strings (the second render duplicates the owner comment),
so repeated `Render` calls are not byte-identical. -/
theorem render_determinism_counterexample :
    c2SecondRender ≠ c2FirstRender ∧ c2FirstRender.toOption ≠ none ∧
      c2SecondRender.toOption ≠ none := by
  decide

/-- C2 amended: repeated `Juniper.__str__` calls after one Translate are
byte-identical provided no term has an owner and no term carries a
`sample` option — those are the renderer's two self-mutations; for such
policies the render leaves the translated state unchanged, so every later
call returns the same string. -/
theorem render_determinism_amended :
    ∀ (fs : List JPolicyFilter) (s : String) (w : List String)
      (fs' : List JPolicyFilter),
      juniperRender fs = .ok (s, w, fs') →
      (∀ pf ∈ fs, ∀ jt ∈ pf.terms, jt.term.owner = "" ∧
        ∀ o ∈ jt.term.option, pStartsWith o "sample" = false) →
      fs' = fs ∧ juniperRender fs' = juniperRender fs := by
  intro fs s w fs' h hyp
  have hfs : fs' = fs := by
    unfold juniperRender at h
    obtain ⟨r, hfold, h⟩ := bindEq_ok h
    obtain ⟨s2, hstr, h⟩ := bindEq_ok h
    have hfr := juniperRender_fold_frame fs _ r hfold hyp
    simp at h
    have h22 : r.2.2 = fs' := by rw [h.2]
    rw [← h22, hfr, List.nil_append]
  exact ⟨hfs, by rw [hfs]⟩

set_option maxRecDepth 10000 in
/-- C2 witness: an owner-free one-term policy renders to a fixed string
and the renderer state is returned unchanged. -/
theorem render_determinism_witness :
    [plainPolicyFilter] = [plainPolicyFilter] ∧
      juniperRender [plainPolicyFilter] = juniperRender [plainPolicyFilter] :=
  render_determinism_amended [plainPolicyFilter]
    "firewall \x7b\n    family inet \x7b\n        replace:\n        /*\n        ** $Id:$\n        ** $Date:$\n        **\n        ** hdr comment\n        */\n        filter FILTERNAME \x7b\n            interface-specific;\n            term t1 \x7b\n                then \x7b\n                    accept;\n                \x7d\n            \x7d\n        \x7d\n    \x7d\n\x7d\n"
    [] [plainPolicyFilter] (by decide) (by decide)


lemma dropWhile_space_replicate (n : Nat) (l : List Char) :
    (List.replicate n ' ' ++ l).dropWhile (· == ' ') = l.dropWhile (· == ' ') := by
  induction n with
  | zero => rfl
  | succ m ih =>
    rw [List.replicate_succ, List.cons_append, List.dropWhile_cons, if_pos (by decide)]
    exact ih

lemma trimRightChars_prefix : ∀ l : List Char, trimRightChars l <+: l := by
  intro l
  induction l with
  | nil => exact ⟨[], rfl⟩
  | cons c cs ih =>
    rw [trimRightChars]
    cases htr : trimRightChars cs with
    | nil =>
      dsimp only
      by_cases hw : c.isWhitespace = true
      · rw [if_pos hw]
        exact ⟨c :: cs, rfl⟩
      · rw [if_neg hw]
        exact ⟨cs, rfl⟩
    | cons r rs =>
      dsimp only
      rw [htr] at ih
      obtain ⟨u, hu⟩ := ih
      exact ⟨u, by rw [List.cons_append, hu]⟩

lemma dropWhile_ws_head :
    ∀ (d : List Char) (c : Char) (t : List Char),
      d.dropWhile Char.isWhitespace = c :: t → c.isWhitespace = false := by
  intro d
  induction d with
  | nil => intro c t h; simp at h
  | cons a d' ih =>
    intro c t h
    rw [List.dropWhile_cons] at h
    by_cases ha : a.isWhitespace = true
    · rw [if_pos ha] at h
      exact ih c t h
    · rw [if_neg ha] at h
      cases h
      simpa using ha

lemma pstrip_head_not_ws {s : String} {c : Char} {t : List Char}
    (h : (pstrip s).data = c :: t) : c.isWhitespace = false := by
  have hd : (pstrip s).data = trimRightChars (s.data.dropWhile Char.isWhitespace) := rfl
  rw [hd] at h
  have hp := trimRightChars_prefix (s.data.dropWhile Char.isWhitespace)
  rw [h] at hp
  obtain ⟨u, hu⟩ := hp
  exact dropWhile_ws_head s.data c (t ++ u) (by simpa using hu.symm)

lemma pstrip_dropWhile_space (s : String) :
    (pstrip s).data.dropWhile (· == ' ') = (pstrip s).data := by
  cases hp : (pstrip s).data with
  | nil => rfl
  | cons c t =>
    have hw := pstrip_head_not_ws hp
    have hcne : ¬((c == ' ') = true) := by
      intro hce
      rw [beq_iff_eq] at hce
      rw [hce] at hw
      exact absurd hw (by decide)
    rw [List.dropWhile_cons, if_neg hcne]

lemma lineLeads_spaces_pstrip (k : Int) (s : String) :
    lineLeads (spacesN k ++ pstrip s) = pstrip s := by
  show String.mk ((spacesN k ++ pstrip s).data.dropWhile (· == ' ')) = pstrip s
  rw [String.data_append]
  rw [show (spacesN k).data = List.replicate k.toNat ' ' from rfl]
  rw [dropWhile_space_replicate, pstrip_dropWhile_space]

lemma pstrip_ne_from {s : String} {c : Char} {r : List Char}
    (hdata : s.data = c :: r) (hw : c.isWhitespace = false) (hc : c ≠ 'f') :
    pstrip s ≠ "from \x7b" := by
  intro he
  have hd : trimRightChars (s.data.dropWhile Char.isWhitespace) = ("from \x7b" : String).data := by
    rw [← he]; rfl
  rw [hdata, List.dropWhile_cons, if_neg (by simp [hw])] at hd
  have hp := trimRightChars_prefix (c :: r)
  rw [hd] at hp
  obtain ⟨u, hu⟩ := hp
  rw [show ("from \x7b" : String).data = 'f' :: ("rom \x7b" : String).data from rfl,
    List.cons_append] at hu
  injection hu with h1 _
  exact hc h1.symm

lemma trimRight_concat : ∀ (m : List Char) (c : Char), c.isWhitespace = false →
    trimRightChars (m ++ [c]) = m ++ [c] := by
  intro m
  induction m with
  | nil =>
    intro c hc
    simp [trimRightChars, hc]
  | cons a m' ih =>
    intro c hc
    rw [List.cons_append, trimRightChars, ih c hc]
    cases hm : m' ++ [c] with
    | nil => exact absurd hm (by simp)
    | cons b bs => rfl

lemma dropWhile_ws_concat : ∀ (d : List Char) (c : Char), c.isWhitespace = false →
    ∃ m, (d ++ [c]).dropWhile Char.isWhitespace = m ++ [c] := by
  intro d
  induction d with
  | nil =>
    intro c hc
    exact ⟨[], by simp [List.dropWhile_cons, hc]⟩
  | cons a d' ih =>
    intro c hc
    rw [List.cons_append, List.dropWhile_cons]
    by_cases ha : a.isWhitespace = true
    · rw [if_pos ha]
      exact ih c hc
    · rw [if_neg ha]
      exact ⟨a :: d', by simp⟩

lemma pstrip_semi_ne (y : String) : pstrip (y ++ ";") ≠ "from \x7b" := by
  intro he
  obtain ⟨m, hm⟩ := dropWhile_ws_concat y.data ';' (by decide)
  have hd : (pstrip (y ++ ";")).data = m ++ [';'] := by
    show trimRightChars ((y ++ ";").data.dropWhile Char.isWhitespace) = m ++ [';']
    rw [String.data_append, show (";" : String).data = [';'] from rfl, hm]
    exact trimRight_concat m ';' (by decide)
  rw [he] at hd
  have h2 := congrArg List.getLast? hd
  rw [List.getLast?_concat] at h2
  exact absurd h2 (by decide)

lemma jconfigAppend_lines {cfg : JConfig} {l : String} {cfg' : JConfig}
    (h : jconfigAppend cfg l false = .ok cfg') :
    ∃ k : Int, cfg'.lines = cfg.lines ++ [spacesN k ++ pstrip l] := by
  unfold jconfigAppend at h
  rw [if_neg (by simp)] at h
  dsimp only at h
  by_cases h1 : pEndsWith l "\x7d" = true
  · rw [if_pos h1] at h
    by_cases h2 : cfg.indent - cfg.tabstop < cfg.initialIndent
    · rw [if_pos h2] at h
      exact Except.noConfusion h
    · rw [if_neg h2] at h
      cases h
      exact ⟨cfg.indent - cfg.tabstop, rfl⟩
  · rw [if_neg h1] at h
    by_cases h3 : pEndsWith l " \x7b" = true
    · rw [if_pos h3] at h
      cases h
      exact ⟨cfg.indent, rfl⟩
    · rw [if_neg h3] at h
      cases h
      exact ⟨cfg.indent, rfl⟩

lemma jAppendAll_lines :
    ∀ (ls : List String) (cfg cfg' : JConfig),
      jAppendAll cfg ls = .ok cfg' →
      ∃ ss, cfg'.lines = cfg.lines ++ ss ∧
        ∀ x ∈ ss, ∃ (k : Int) (l : String), l ∈ ls ∧ x = spacesN k ++ pstrip l := by
  intro ls
  induction ls with
  | nil =>
    intro cfg cfg' h
    cases h
    exact ⟨[], by simp, by simp⟩
  | cons l rest ih =>
    intro cfg cfg' h
    simp only [jAppendAll, List.foldlM] at h
    cases hstep : jconfigAppend cfg l false with
    | error e =>
      rw [hstep] at h
      simp at h
    | ok c1 =>
      rw [hstep] at h
      simp only [except_ok_bind] at h
      obtain ⟨k, hk⟩ := jconfigAppend_lines hstep
      obtain ⟨ss, hss, hall⟩ := ih c1 cfg' h
      refine ⟨(spacesN k ++ pstrip l) :: ss, ?_, ?_⟩
      · rw [hss, hk]
        simp
      · intro x hx
        rw [List.mem_cons] at hx
        rcases hx with rfl | hx
        · exact ⟨k, l, by simp, rfl⟩
        · obtain ⟨k2, l2, hl2, hx2⟩ := hall x hx
          exact ⟨k2, l2, by simp [hl2], hx2⟩

lemma hasMatchCriteria_owner (t : PTerm) :
    hasMatchCriteria (jOwnerComment t) = hasMatchCriteria t := by
  unfold jOwnerComment
  split <;> rfl

lemma jOwnerComment_verbatim (t : PTerm) :
    (jOwnerComment t).verbatim = t.verbatim := by
  unfold jOwnerComment
  split <;> rfl

lemma jCommentBlockLines_shape {c : List String} {l : String}
    (h : l ∈ jCommentBlockLines c) :
    l = "/*" ∨ l = "*/" ∨ ∃ x, l = "** " ++ x := by
  unfold jCommentBlockLines at h
  rw [List.mem_append, List.mem_cons] at h
  rcases h with (h | h) | h
  · exact Or.inl h
  · rw [List.mem_flatMap] at h
    obtain ⟨cc, -, h⟩ := h
    rw [List.mem_map] at h
    obtain ⟨p, -, h⟩ := h
    exact Or.inr (Or.inr ⟨p, h.symm⟩)
  · rw [List.mem_singleton] at h
    exact Or.inr (Or.inl h)

lemma thenContentLines_semi {t : PTerm} {e : List String} {l : String}
    (h : l ∈ thenContentLines t e) : ∃ y, l = y ++ ";" := by
  unfold thenContentLines at h
  simp only [List.mem_append] at h
  rcases h with ((((((hA | hB) | hC) | hD) | hE) | hF) | hG) | hH
  · obtain ⟨lt, -, hA⟩ := List.mem_map.1 hA
    by_cases hlt : (lt == "local") = true
    · exact ⟨"log", by rw [← hA, if_pos hlt]; decide⟩
    · exact ⟨"syslog", by rw [← hA, if_neg hlt]; decide⟩
  · split at hB
    · rw [List.mem_singleton] at hB
      exact ⟨"routing-instance " ++ t.routing_instance, hB⟩
    · simp at hB
  · split at hC
    · rw [List.mem_singleton] at hC
      exact ⟨"count " ++ t.counter, hC⟩
    · simp at hC
  · split at hD
    · rw [List.mem_singleton] at hD
      exact ⟨"policer " ++ t.policer, hD⟩
    · simp at hD
  · split at hE
    · rw [List.mem_singleton] at hE
      exact ⟨"forwarding-class " ++ t.qos, hE⟩
    · simp at hE
  · split at hF
    · rw [List.mem_singleton] at hF
      exact ⟨"loss-priority " ++ t.loss_priority, hF⟩
    · simp at hF
  · obtain ⟨a, -, hG⟩ := List.mem_map.1 hG
    exact ⟨a, hG.symm⟩
  · split at hH
    · obtain ⟨a, -, hH⟩ := List.mem_map.1 hH
      exact ⟨jTermActions a, hH.symm⟩
    · simp at hH

/-! ## Claim C9 -/

/-- C9: a Juniper term with no match criteria (and no verbatim text)
whose render succeeds emits no `from` block opener at all — no emitted
line's content is `from` — while a `then` block opener is present: the
body is the action block alone. -/
theorem no_match_criteria_no_from_block :
    ∀ (jt : JTerm) (cfg : JConfig) (w : List String) (jt' : JTerm),
      hasMatchCriteria jt.term = false →
      jt.term.verbatim = [] →
      renderJTermConfig jt = .ok (some cfg, w, jt') →
      (∀ x ∈ cfg.lines, lineLeads x ≠ "from \x7b") ∧
        (∃ x ∈ cfg.lines, lineLeads x = "then \x7b") := by
  intro jt cfg w jt' hmc hverb h
  have hproto : jt.term.protocol = [] := by
    cases hp : jt.term.protocol with
    | nil => rfl
    | cons a l =>
      exfalso
      unfold hasMatchCriteria at hmc
      rw [hp] at hmc
      simp at hmc
  unfold renderJTermConfig at h
  dsimp only at h
  split at h
  · simp at h
  · split at h
    · simp at h
    · rw [if_neg (by simp [hproto])] at h
      obtain ⟨cfg1, hC, h⟩ := bindEq_ok h
      have hcfg1 : ∀ x ∈ cfg1.lines, lineLeads x ≠ "from \x7b" := by
        intro x hx
        by_cases hcm : (!(jOwnerComment jt.term).comment.isEmpty) = true
        · rw [if_pos hcm] at hC
          obtain ⟨ss, hss, hall⟩ := jAppendAll_lines _ _ _ hC
          rw [hss] at hx
          simp only [List.nil_append] at hx
          obtain ⟨k, l, hl, hxe⟩ := hall x hx
          rw [hxe, lineLeads_spaces_pstrip]
          rcases jCommentBlockLines_shape hl with h1 | h1 | ⟨p, h1⟩
          · rw [h1]; decide
          · rw [h1]; decide
          · rw [h1]
            exact pstrip_ne_from
              (show ("** " ++ p).data = '*' :: ('*' :: (' ' :: p.data)) from rfl)
              (by decide) (by decide)
        · rw [if_neg hcm] at hC
          cases hC
          simp at hx
      rw [if_neg (by simp [jOwnerComment_verbatim, hverb])] at h
      obtain ⟨p, hO, h⟩ := bindEq_ok h
      obtain ⟨cfg3, hT, h⟩ := bindEq_ok h
      rw [if_neg (by rw [hasMatchCriteria_owner]; simp [hmc])] at h
      obtain ⟨fr, hFR, h⟩ := bindEq_ok h
      cases hFR
      dsimp only at h
      obtain ⟨cfg5, h5, h⟩ := bindEq_ok h
      obtain ⟨cfg6, h6, h⟩ := bindEq_ok h
      obtain ⟨cfg7, h7, h⟩ := bindEq_ok h
      obtain ⟨cfg8, h8, h⟩ := bindEq_ok h
      simp at h
      obtain ⟨hc8, -, -⟩ := h
      subst hc8
      obtain ⟨kT, hlT⟩ := jconfigAppend_lines hT
      obtain ⟨k5, hl5⟩ := jconfigAppend_lines h5
      obtain ⟨ss6, hl6, hall6⟩ := jAppendAll_lines _ _ _ h6
      obtain ⟨k7, hl7⟩ := jconfigAppend_lines h7
      obtain ⟨k8, hl8⟩ := jconfigAppend_lines h8
      rw [hl8, hl7, hl6, hl5, hlT]
      constructor
      · intro x hx
        simp only [List.mem_append, List.mem_singleton, List.append_assoc] at hx
        rcases hx with hx | hx | hx | hx | hx | hx
        · exact hcfg1 x hx
        · rw [hx, lineLeads_spaces_pstrip]
          exact pstrip_ne_from
            (show ("term " ++ (jOwnerComment jt.term).name ++ " \x7b").data
              = 't' :: ((['e', 'r', 'm', ' '] ++ (jOwnerComment jt.term).name.data)
                ++ (" \x7b" : String).data) from rfl)
            (by decide) (by decide)
        · rw [hx, lineLeads_spaces_pstrip]
          decide
        · obtain ⟨k, l, hl, hxe⟩ := hall6 x hx
          obtain ⟨y, hy⟩ := thenContentLines_semi hl
          rw [hxe, lineLeads_spaces_pstrip, hy]
          exact pstrip_semi_ne y
        · rw [hx, lineLeads_spaces_pstrip]
          decide
        · rw [hx, lineLeads_spaces_pstrip]
          decide
      · refine ⟨spacesN k5 ++ pstrip "then \x7b", ?_, ?_⟩
        · simp
        · rw [lineLeads_spaces_pstrip]
          decide


set_option maxRecDepth 10000 in
/-- C9 witness: the concrete default-deny term — no match criteria, a
comment, logging, a counter and a deny action — renders to a config with
no `from` opener and a `then` opener. -/
theorem no_match_criteria_no_from_block_witness :
    hasMatchCriteria c9JTerm.term = false ∧ c9JTerm.term.verbatim = [] ∧
      renderJTermConfig c9JTerm = .ok (some c9Cfg, [], c9JTerm) ∧
      ((∀ x ∈ c9Cfg.lines, lineLeads x ≠ "from \x7b") ∧
        (∃ x ∈ c9Cfg.lines, lineLeads x = "then \x7b")) :=
  ⟨by decide, by decide, by decide,
   no_match_criteria_no_from_block c9JTerm c9Cfg [] c9JTerm
     (by decide) (by decide) (by decide)⟩
